import Mathlib

/-!
Shallow embedding of `controller_fire.c`

The C program simulates a small territorial-conquest game.  This development embeds
its data model, its two decision procedures, `atacar` (combat) and `verificarMissao`
(mission check), the mission draw `atribuirMissao` and the game loop of `main` as
executable Lean functions and proves the properties of the specification about them.

Modelling conventions
* A C string is the list of its characters before the terminating NUL (`CStr`).
* `int` is 32 bits wide: values are `Int`s, and every `+`, `-` and `++` the code
  performs on a troop count, a territory count or a troop total is followed by `wrap32`,
  the two's-complement truncation.  Loop counters that a constant bounds (`tries`,
  `jogador`, `rodada`) are natural numbers.
* `rand()` is a stream of naturals read through a cursor (`Rand`), so that the
  number of draws a function consumes is observable.
* `printf` output is the list of the lines written, each line kept as the tuple of
  the values it prints (`Linha`).
* Pointer arguments are non-NULL references: on a NULL argument both functions
  return at once (lines 48 and 127) and there is no territory or phrase to speak of.
-/

namespace ControllerFire

/-! ## Data model -/

/-- A C string, as the characters that precede its terminating NUL. -/
abbrev CStr := List Char

/-- Largest value of a 32-bit `int`. -/
def INT_MAX : Int := 2147483647

/-- Smallest value of a 32-bit `int`. -/
def INT_MIN : Int := -2147483648

/-- Two's-complement truncation of a mathematical integer to a 32-bit `int`. -/
def wrap32 (x : Int) : Int := (x + 2147483648) % 4294967296 - 2147483648

/-- The `Territorio` struct: `char nome[30]; char cor[10]; int tropas;`. -/
structure Territorio where
  nome : CStr
  cor : CStr
  tropas : Int
deriving DecidableEq, Repr

/-- The values a C `Territorio` can hold: both strings fit their buffers together with
the terminating NUL, and `tropas` is a 32-bit `int`. -/
def Territorio.valido (t : Territorio) : Prop :=
  t.nome.length ≤ 29 ∧ t.cor.length ≤ 9 ∧ INT_MIN ≤ t.tropas ∧ t.tropas ≤ INT_MAX

instance (t : Territorio) : Decidable t.valido := by
  unfold Territorio.valido; infer_instance

/-! ## Random source -/

/-- The process-wide pseudo-random generator: the sequence of values `rand()` will
return, and how many of them have been consumed. -/
structure Rand where
  seq : Nat → Nat
  pos : Nat

/-- One call of `rand()`: the value drawn and the generator after the draw. -/
def rand (g : Rand) : Nat × Rand := (g.seq g.pos, ⟨g.seq, g.pos + 1⟩)

/-- The expression `(rand() % 6) + 1` applied to a drawn value. -/
def dado (r : Nat) : Int := ((r % 6 : Nat) : Int) + 1

/-! ## Output -/

/-- The lines `atacar` writes, each with the values substituted into its format. -/
inductive Linha where
  | ataque (nomeA corA : CStr) (tropasA : Int) (nomeD corD : CStr) (tropasD : Int)
      (dadoA dadoD : Int)
  | vencedorAtacante (transferencia : Int) (nomeD corA : CStr)
  | defensorResiste (tropasRestantes : Int)
deriving DecidableEq, Repr

/-! ## Combat resolver -/

/-- What a call of `atacar` leaves behind: both territories, the lines written and the
random generator. -/
structure Ataque where
  atacante : Territorio
  defensor : Territorio
  saida : List Linha
  rng : Rand

/-- Embedding of `void atacar(Territorio *atacante, Territorio *defensor)`
(lines 126-163). -/
def atacar (atacante defensor : Territorio) (rng : Rand) : Ataque :=
  if atacante.cor = defensor.cor then
    ⟨atacante, defensor, [], rng⟩
  else if atacante.tropas ≤ 1 then
    ⟨atacante, defensor, [], rng⟩
  else
    let sorteioA := rand rng
    let dadoA := dado sorteioA.1
    let sorteioD := rand sorteioA.2
    let dadoD := dado sorteioD.1
    let linha1 := Linha.ataque atacante.nome atacante.cor atacante.tropas
      defensor.nome defensor.cor defensor.tropas dadoA dadoD
    if dadoA > dadoD then
      let metade := Int.tdiv atacante.tropas 2
      let transferencia := if metade < 1 then 1 else metade
      let linha2 := Linha.vencedorAtacante transferencia defensor.nome atacante.cor
      let defensor1 : Territorio :=
        ⟨defensor.nome, atacante.cor.take 9, transferencia⟩
      let resto := wrap32 (atacante.tropas - transferencia)
      let atacante1 : Territorio :=
        ⟨atacante.nome, atacante.cor, if resto < 0 then 0 else resto⟩
      ⟨atacante1, defensor1, [linha1, linha2], sorteioD.2⟩
    else
      let resto := wrap32 (atacante.tropas - 1)
      let restantes := if resto < 0 then 0 else resto
      let atacante1 : Territorio := ⟨atacante.nome, atacante.cor, restantes⟩
      ⟨atacante1, defensor, [linha1, Linha.defensorResiste restantes], sorteioD.2⟩

/-! ## C library string functions used by `verificarMissao` -/

/-- The test `*p >= '0' && *p <= '9'` of lines 56 and 77, also `isdigit`. -/
def ehDigito (c : Char) : Bool := decide ('0' ≤ c ∧ c ≤ '9')

/-- The C library `isspace` in the "C" locale. -/
def ehEspaco (c : Char) : Bool :=
  c = ' ' || c = '\t' || c = '\n' || c = '\x0b' || c = '\x0c' || c = '\r'

/-- The value of a decimal digit character, `c - '0'`. -/
def valorDigito (c : Char) : Nat := c.toNat - 48

/-- The accumulation loop of `atoi`: reads decimal digits while there are any. -/
def lerDigitos (acc : Nat) : CStr → Nat
  | [] => acc
  | c :: t => if ehDigito c then lerDigitos (acc * 10 + valorDigito c) t else acc

/-- The C library `atoi`: skips leading white space, takes an optional sign and reads
the decimal digits that follow.  ISO C leaves the result undefined when the number does
not fit an `int`; it is truncated to 32 bits here, like all other `int` arithmetic. -/
def atoi (s : CStr) : Int :=
  match s.dropWhile ehEspaco with
  | '-' :: t => wrap32 (-((lerDigitos 0 t : Nat) : Int))
  | '+' :: t => wrap32 ((lerDigitos 0 t : Nat) : Int)
  | t => wrap32 ((lerDigitos 0 t : Nat) : Int)

/-- The C library `strstr`: the part of `haystack` that starts at the first occurrence
of `needle`, or `none` (NULL) when there is no occurrence. -/
def strstr (haystack needle : CStr) : Option CStr :=
  match haystack with
  | [] => if needle.isPrefixOf [] then some [] else none
  | c :: t => if needle.isPrefixOf (c :: t) then some (c :: t) else strstr t needle

/-- The C library `strchr` for a non-NUL character: the part of `s` that starts at the
first occurrence of `c`, or `none` (NULL). -/
def strchr (s : CStr) (c : Char) : Option CStr :=
  match s with
  | [] => none
  | x :: t => if x = c then some (x :: t) else strchr t c

/-- The C library `strrchr` for a non-NUL character: the part of `s` that starts at the
last occurrence of `c`, or `none` (NULL). -/
def strrchr (s : CStr) (c : Char) : Option CStr :=
  match s with
  | [] => none
  | x :: t =>
    match strrchr t c with
    | some r => some r
    | none => if x = c then some (x :: t) else none

/-! ## Mission evaluator -/

/-- The keyword `"Possuir"` of line 51. -/
def palavraPossuir : CStr := "Possuir".toList

/-- The keyword `"territorios"` of line 51. -/
def palavraTerritorios : CStr := "territorios".toList

/-- The keyword `"Conquistar"` of line 72. -/
def palavraConquistar : CStr := "Conquistar".toList

/-- The fixed text `"Eliminar todas as tropas da cor"` of line 91. -/
def fraseEliminar : CStr := "Eliminar todas as tropas da cor".toList

/-- The digit search of lines 53-61 (and 74-82): `N` stays `0` unless a digit is found,
and then it is `atoi` of the text starting at the first digit. -/
def extrairN (p : CStr) : Int :=
  match p with
  | [] => 0
  | c :: t => if ehDigito c then atoi (c :: t) else extrairN t

/-- The counting loop of lines 63-66 (and 84-85): `cnt++` for every territory whose
colour compares equal to `corJogador`. -/
def contarCor (mapa : List Territorio) (corJogador : CStr) : Int :=
  mapa.foldl (fun cnt t => if t.cor = corJogador then wrap32 (cnt + 1) else cnt) 0

/-- The summing loop of lines 102-105: `totalTropas += tropas` for every territory whose
colour compares equal to `corAlvo`. -/
def somarTropas (mapa : List Territorio) (corAlvo : CStr) : Int :=
  mapa.foldl (fun total t => if t.cor = corAlvo then wrap32 (total + t.tropas) else total) 0

/-- Lines 94-100: `corAlvo` is zero-filled, receives at most 19 characters of the text
after the last space, and is cut at its first `'.'`. -/
def corAlvoDe (last : CStr) : CStr :=
  let corAlvo := (last.drop 1).take 19
  match strchr corAlvo '.' with
  | some nl => corAlvo.take (corAlvo.length - nl.length)
  | none => corAlvo

/-- Lines 51-69, the "Possuir N territorios" class: `some r` when the block executes
`return r`, `none` when control falls through to the next block. -/
def classePossuir (missao : CStr) (mapa : List Territorio) (corJogador : CStr) :
    Option Int :=
  if (strstr missao palavraPossuir).isSome ∧ (strstr missao palavraTerritorios).isSome then
    let N := extrairN missao
    if N > 0 then
      let cnt := contarCor mapa corJogador
      some (if cnt ≥ N then 1 else 0)
    else none
  else none

/-- Lines 72-88, the "Conquistar" class: `some r` when the block executes `return r`,
`none` when control falls through. -/
def classeConquistar (missao : CStr) (mapa : List Territorio) (corJogador : CStr) :
    Option Int :=
  if (strstr missao palavraConquistar).isSome then
    let N := extrairN missao
    if N > 0 then
      let cnt := contarCor mapa corJogador
      some (if cnt ≥ N then 1 else 0)
    else none
  else none

/-- Lines 91-108, the "Eliminar todas as tropas da cor X" class: `some r` when the block
executes `return r`, `none` when control falls through. -/
def classeEliminar (missao : CStr) (mapa : List Territorio) : Option Int :=
  if (strstr missao fraseEliminar).isSome then
    match strrchr missao ' ' with
    | some last =>
      let totalTropas := somarTropas mapa (corAlvoDe last)
      some (if totalTropas = 0 then 1 else 0)
    | none => none
  else none

/-- Embedding of `int verificarMissao(char *missao, Territorio *mapa, int tamanho,
const char *corJogador)` (lines 47-112); `mapa` is the list of the `tamanho` territories
the loops visit. -/
def verificarMissao (missao : CStr) (mapa : List Territorio) (corJogador : CStr) : Int :=
  match classePossuir missao mapa corJogador with
  | some r => r
  | none =>
    match classeConquistar missao mapa corJogador with
    | some r => r
    | none =>
      match classeEliminar missao mapa with
      | some r => r
      | none => 0

/-- The arrays a C caller can pass: `tamanho` is an `int`, every element a valid
`Territorio`. -/
def mapaValido (mapa : List Territorio) : Prop :=
  (mapa.length : Int) ≤ INT_MAX ∧ ∀ t ∈ mapa, t.valido

/-! ## Specification-side notions -/

/-- Number of territories of the map whose colour is `cor`. -/
def territoriosDe (mapa : List Territorio) (cor : CStr) : Nat :=
  mapa.countP (fun t => decide (t.cor = cor))

/-- Sum, as a mathematical integer, of the troops of the territories whose colour is
`cor`. -/
def tropasDe (mapa : List Territorio) (cor : CStr) : Int :=
  ((mapa.filter (fun t => decide (t.cor = cor))).map Territorio.tropas).sum

/-- The target colour in terms of the phrase alone: the text after the last space
character, limited to its first 19 characters and cut at its first period. -/
def alvoEfetivo (missao : CStr) : CStr :=
  (((missao.reverse.takeWhile (fun x => decide (x ≠ ' '))).reverse).take 19).takeWhile
    (fun x => decide (x ≠ '.'))

/-- Follows the specification's words: the last whitespace-delimited token of the phrase,
with a trailing period stripped if present. -/
def alvoEspecificado (missao : CStr) : CStr :=
  let tokens := (missao.splitOnP ehEspaco).filter (fun w => !w.isEmpty)
  let ultimo := tokens.getLast?.getD []
  if ultimo.getLast? = some '.' then ultimo.dropLast else ultimo

/-- The number a string of decimal digits denotes. -/
def valorDecimal (ds : CStr) : Nat :=
  Nat.ofDigits 10 (ds.reverse.map valorDigito)

/-- The string `ds` is the first run of decimal digits of `pre ++ ds ++ post`: no digit
before it, only digits in it, and no digit right after it. -/
def primeiraSequencia (pre ds post : CStr) : Prop :=
  (∀ c ∈ pre, ehDigito c = false) ∧ ds ≠ [] ∧ (∀ c ∈ ds, ehDigito c = true) ∧
    ∀ c ∈ post.head?, ehDigito c = false

instance (pre ds post : CStr) : Decidable (primeiraSequencia pre ds post) := by
  unfold primeiraSequencia; infer_instance

instance (mapa : List Territorio) : Decidable (mapaValido mapa) := by
  unfold mapaValido; infer_instance

/-! ## Concrete inputs used by the examples -/

/-- The characters of `"Blue"`. -/
def azul : CStr := "Blue".toList

/-- The characters of `"Red"`. -/
def vermelho : CStr := "Red".toList

/-- A map on which Blue owns exactly three territories. -/
def mapaAzul3 : List Territorio :=
  [⟨"T1".toList, azul, 3⟩, ⟨"T2".toList, vermelho, 4⟩, ⟨"T3".toList, azul, 2⟩,
    ⟨"T4".toList, vermelho, 5⟩, ⟨"T5".toList, azul, 3⟩]

/-- A map on which Blue owns exactly two territories. -/
def mapaAzul2 : List Territorio :=
  [⟨"T1".toList, azul, 3⟩, ⟨"T2".toList, vermelho, 4⟩, ⟨"T3".toList, azul, 2⟩,
    ⟨"T4".toList, vermelho, 5⟩]

/-- A phrase of the conquer class, without any digit, that also carries the elimination
text. -/
def fraseMista : CStr := "Conquistar e Eliminar todas as tropas da cor Red".toList

/-- The elimination phrase up to and including the space before the colour word. -/
def prefixoEliminar : CStr := "Eliminar todas as tropas da cor ".toList

/-- A map on which every Red territory has no troops. -/
def mapaVermelhoZero : List Territorio :=
  [⟨"T1".toList, azul, 3⟩, ⟨"T2".toList, vermelho, 0⟩, ⟨"T3".toList, azul, 2⟩,
    ⟨"T4".toList, vermelho, 0⟩]

/-- Four valid Red territories of 2^30 troops each: their `int` sum comes back to `0`. -/
def mapaTransbordo : List Territorio :=
  [⟨"T1".toList, vermelho, 1073741824⟩, ⟨"T2".toList, vermelho, 1073741824⟩,
    ⟨"T3".toList, vermelho, 1073741824⟩, ⟨"T4".toList, vermelho, 1073741824⟩]

/-- An elimination phrase whose last word has a period inside it. -/
def frasePontoInterno : CStr := "Eliminar todas as tropas da cor R.ed".toList

/-- A generator whose first draw is `a`, second draw is `b` and every later draw `0`. -/
def rngDe (a b : Nat) : Rand := ⟨fun i => if i = 0 then a else if i = 1 then b else 0, 0⟩

/-! ## Mission assignment -/

/-- Embedding of `void atribuirMissao(char *destino, char *missoes[], int totalMissoes)`
(lines 36-40).  `destino` is the content of the destination buffer, which the caller
allocated large enough; the result is the content after the call together with the
generator, and `none` when `missoes[idx]` would be read outside the array. -/
def atribuirMissao (destino : CStr) (missoes : List CStr) (totalMissoes : Int)
    (rng : Rand) : Option (CStr × Rand) :=
  if totalMissoes ≤ 0 then some (destino, rng)
  else
    let sorteio := rand rng
    let idx := Int.tmod (sorteio.1 : Int) totalMissoes
    match missoes.get? idx.toNat with
    | some missao => some (missao, sorteio.2)
    | none => none

/-- The catalog `missoesDisponiveis` of `main` (lines 191-197). -/
def missoesDisponiveis : List CStr :=
  ["Possuir 3 territorios".toList, "Possuir 4 territorios".toList,
    "Conquistar 2 territorios seguidos".toList,
    "Eliminar todas as tropas da cor Red".toList, "Possuir 5 territorios".toList]

/-! ## Game loop -/

/-- The map `main` builds from `nomes`, `coresIniciais` and `tropasInit`
(lines 209-219). -/
def mapaInicial : List Territorio :=
  [⟨"T1".toList, azul, 3⟩, ⟨"T2".toList, vermelho, 4⟩, ⟨"T3".toList, azul, 2⟩,
    ⟨"T4".toList, vermelho, 5⟩, ⟨"T5".toList, azul, 3⟩, ⟨"T6".toList, vermelho, 4⟩,
    ⟨"T7".toList, azul, 2⟩, ⟨"T8".toList, vermelho, 3⟩]

/-- The array `coresJogadores` of `main` (line 223). -/
def coresJogadores : List CStr := [azul, vermelho]

/-- The constant `maxRodadas` of `main` (line 256). -/
def maxRodadas : Nat := 50

/-- What a read of `mapa[idx]` outside the array stands for; the loop never makes one. -/
def foraDoMapa : Territorio := ⟨[], [], 0⟩

/-- The lines the game loop writes, each with the values it prints. -/
inductive LinhaJogo where
  | cabecalho (rodada : Nat)
  | semAtacante (jogador : Nat) (cor : CStr)
  | semAlvo (jogador : Nat) (cor : CStr)
  | combate (linha : Linha)
  | cumpriu (jogador : Nat) (cor missao : CStr)
  | exibirMapa (mapa : List Territorio)
  | nenhumVencedor (rodadas : Nat)
  | venceu (jogador : Int) (cor : CStr)
deriving DecidableEq, Repr

/-- The variables of `main` that the game loop reads and writes, and the output. -/
structure Jogo where
  mapa : List Territorio
  rng : Rand
  rodada : Nat
  vencedor : Int
  saida : List LinhaJogo

/-- The attacker search of lines 265-272: up to `tries` draws of `rand() % numTerritorios`,
stopping at the first territory of the current colour with more than one troop. -/
def escolherAtacante (mapa : List Territorio) (corAtual : CStr) :
    Nat → Rand → Option Nat × Rand
  | 0, rng => (none, rng)
  | tries + 1, rng =>
    let sorteio := rand rng
    let idx := sorteio.1 % mapa.length
    if (mapa.getD idx foraDoMapa).cor = corAtual ∧ (mapa.getD idx foraDoMapa).tropas > 1 then
      (some idx, sorteio.2)
    else escolherAtacante mapa corAtual tries sorteio.2

/-- The defender search of lines 279-286: up to `tries` draws of `rand() % numTerritorios`,
stopping at the first territory whose colour is not the current one. -/
def escolherDefensor (mapa : List Territorio) (corAtual : CStr) :
    Nat → Rand → Option Nat × Rand
  | 0, rng => (none, rng)
  | tries + 1, rng =>
    let sorteio := rand rng
    let idx := sorteio.1 % mapa.length
    if (mapa.getD idx foraDoMapa).cor ≠ corAtual then (some idx, sorteio.2)
    else escolherDefensor mapa corAtual tries sorteio.2

/-- Outcome of the two searches of one turn. -/
inductive Selecao where
  | semAtacante (rng : Rand)
  | semAlvo (rng : Rand)
  | par (atacanteIdx defensorIdx : Nat) (rng : Rand)

/-- Lines 264-290: the attacker search, then the defender search, each of 20 tries; the
defender search only runs when an attacker was found. -/
def selecionar (mapa : List Territorio) (corAtual : CStr) (rng : Rand) : Selecao :=
  match escolherAtacante mapa corAtual 20 rng with
  | (none, rng1) => Selecao.semAtacante rng1
  | (some atacanteIdx, rng1) =>
    match escolherDefensor mapa corAtual 20 rng1 with
    | (none, rng2) => Selecao.semAlvo rng2
    | (some defensorIdx, rng2) => Selecao.par atacanteIdx defensorIdx rng2

/-- The map after `atacar(&mapa[atacanteIdx], &mapa[defensorIdx])` (line 293). -/
def aposAtaque (mapa : List Territorio) (atacanteIdx defensorIdx : Nat) (rng : Rand) :
    List Territorio :=
  let r := atacar (mapa.getD atacanteIdx foraDoMapa) (mapa.getD defensorIdx foraDoMapa) rng
  (mapa.set atacanteIdx r.atacante).set defensorIdx r.defensor

/-- One iteration of the `for` over the players (lines 262-300) for player `jogador`:
selection, attack, mission check. -/
def turno (missoes : List CStr) (jogador : Nat) (e : Jogo) : Jogo :=
  let corAtual := coresJogadores.getD jogador []
  match selecionar e.mapa corAtual e.rng with
  | Selecao.semAtacante rng1 =>
    ⟨e.mapa, rng1, e.rodada, e.vencedor,
      e.saida ++ [LinhaJogo.semAtacante (jogador + 1) corAtual]⟩
  | Selecao.semAlvo rng1 =>
    ⟨e.mapa, rng1, e.rodada, e.vencedor, e.saida ++ [LinhaJogo.semAlvo (jogador + 1) corAtual]⟩
  | Selecao.par atacanteIdx defensorIdx rng1 =>
    let r := atacar (e.mapa.getD atacanteIdx foraDoMapa)
      (e.mapa.getD defensorIdx foraDoMapa) rng1
    let mapa1 := aposAtaque e.mapa atacanteIdx defensorIdx rng1
    let saida1 := e.saida ++ r.saida.map LinhaJogo.combate
    if verificarMissao (missoes.getD jogador []) mapa1 corAtual ≠ 0 then
      ⟨mapa1, r.rng, e.rodada, (jogador : Int),
        saida1 ++ [LinhaJogo.cumpriu (jogador + 1) corAtual (missoes.getD jogador [])]⟩
    else ⟨mapa1, r.rng, e.rodada, e.vencedor, saida1⟩

/-- The `for (jogador = 0; jogador < numJogadores && vencedor == -1; jogador++)` of line
261, over the players still to act in the round. -/
def porJogador (missoes : List CStr) : List Nat → Jogo → Jogo
  | [], e => e
  | jogador :: resto, e =>
    if e.vencedor = -1 then porJogador missoes resto (turno missoes jogador e) else e

/-- The body of the `while` (lines 259-304): header, the two players, map dump,
`rodada++`. -/
def umaRodada (missoes : List CStr) (e : Jogo) : Jogo :=
  let e1 : Jogo :=
    ⟨e.mapa, e.rng, e.rodada, e.vencedor, e.saida ++ [LinhaJogo.cabecalho (e.rodada + 1)]⟩
  let e2 := porJogador missoes [0, 1] e1
  ⟨e2.mapa, e2.rng, e2.rodada + 1, e2.vencedor, e2.saida ++ [LinhaJogo.exibirMapa e2.mapa]⟩

/-- The `while (rodada < maxRodadas && vencedor == -1)` of line 258, unrolled at most
`fuel` times. -/
def laco (missoes : List CStr) : Nat → Jogo → Jogo
  | 0, e => e
  | fuel + 1, e =>
    if e.rodada < maxRodadas ∧ e.vencedor = -1 then laco missoes fuel (umaRodada missoes e)
    else e

/-- The state at line 257, before the loop: the initial map, `rodada = 0`,
`vencedor = -1`. -/
def jogoInicial (rng : Rand) : Jogo := ⟨mapaInicial, rng, 0, -1, []⟩

/-- Lines 254-311: the game loop from the initial state, then the summary line. -/
def jogo (missoes : List CStr) (rng : Rand) : Jogo :=
  let f := laco missoes maxRodadas (jogoInicial rng)
  ⟨f.mapa, f.rng, f.rodada, f.vencedor,
    f.saida ++ [if f.vencedor = -1 then LinhaJogo.nenhumVencedor maxRodadas
      else LinhaJogo.venceu (f.vencedor + 1) (coresJogadores.getD f.vencedor.toNat [])]⟩

/-- The states the game can be in: the initial one for any generator, and those that a
turn of either player, the opening of a round or its closing lead to. -/
inductive Alcancavel (missoes : List CStr) : Jogo → Prop where
  | inicial (rng : Rand) : Alcancavel missoes (jogoInicial rng)
  | turno (e : Jogo) (jogador : Nat) : Alcancavel missoes e → jogador < 2 →
      Alcancavel missoes (turno missoes jogador e)
  | linha (e : Jogo) (l : LinhaJogo) : Alcancavel missoes e →
      Alcancavel missoes ⟨e.mapa, e.rng, e.rodada, e.vencedor, e.saida ++ [l]⟩
  | fimRodada (e : Jogo) : Alcancavel missoes e →
      Alcancavel missoes ⟨e.mapa, e.rng, e.rodada + 1, e.vencedor, e.saida⟩

/-- The shape every map of the game keeps: eight valid territories of one to five troops
each. -/
def mapaRegular (mapa : List Territorio) : Prop :=
  mapa.length = 8 ∧ ∀ t ∈ mapa, t.valido ∧ 1 ≤ t.tropas ∧ t.tropas ≤ 5

instance (mapa : List Territorio) : Decidable (mapaRegular mapa) := by
  unfold mapaRegular; infer_instance

/-- The fourth phrase of the catalog. -/
def fraseEliminarVermelho : CStr := "Eliminar todas as tropas da cor Red".toList

/-- A generator that returns the values of `l` in order and `0` after them. -/
def rngLista (l : List Nat) : Rand := ⟨fun i => l.getD i 0, 0⟩

/-! ## Arithmetic helpers -/

theorem wrap32_of_range {x : Int} (h1 : -2147483648 ≤ x) (h2 : x ≤ 2147483647) :
    wrap32 x = x := by
  unfold wrap32; omega

theorem dado_range (r : Nat) : 1 ≤ dado r ∧ dado r ≤ 6 := by
  unfold dado; omega

theorem dado_surj (k : Int) (h1 : 1 ≤ k) (h2 : k ≤ 6) : ∃ r : Nat, dado r = k := by
  refine ⟨(k - 1).toNat, ?_⟩
  unfold dado; omega

theorem tdiv_two_of_nonneg {x : Int} (h : 0 ≤ x) : Int.tdiv x 2 = x / 2 := by
  rw [Int.tdiv_eq_ediv h (by decide)]

/-! ## String and counting helpers -/

theorem strstr_isSome_iff (h n : CStr) : (strstr h n).isSome ↔ n <:+: h := by
  induction h with
  | nil =>
    unfold strstr
    by_cases hp : n.isPrefixOf [] = true
    · have : n <+: [] := List.isPrefixOf_iff_prefix.mp hp
      simp [hp, this.isInfix]
    · have hn : ¬ n <+: [] := fun hh => hp (List.isPrefixOf_iff_prefix.mpr hh)
      have : ¬ n <:+: [] := by
        intro hh
        apply hn
        rw [List.infix_nil] at hh
        simp [hh]
      simp [hp, this]
  | cons c t ih =>
    unfold strstr
    rw [List.infix_cons_iff]
    by_cases hp : n.isPrefixOf (c :: t) = true
    · have : n <+: c :: t := List.isPrefixOf_iff_prefix.mp hp
      simp [hp, this]
    · have hn : ¬ n <+: c :: t := fun hh => hp (List.isPrefixOf_iff_prefix.mpr hh)
      simp [hp, hn, ih]

theorem contarCor_foldl (mapa : List Territorio) (cor : CStr) (acc : Int)
    (h0 : 0 ≤ acc) (hmax : acc + (mapa.length : Int) ≤ 2147483647) :
    mapa.foldl (fun cnt t => if t.cor = cor then wrap32 (cnt + 1) else cnt) acc
      = acc + (territoriosDe mapa cor : Int) := by
  induction mapa generalizing acc with
  | nil => simp [territoriosDe]
  | cons t ts ih =>
    simp only [List.foldl_cons, List.length_cons, Nat.cast_add, Nat.cast_one] at hmax ⊢
    by_cases hc : t.cor = cor
    · have hw : wrap32 (acc + 1) = acc + 1 := wrap32_of_range (by omega) (by omega)
      rw [if_pos hc, hw, ih (acc + 1) (by omega) (by omega)]
      simp [territoriosDe, List.countP_cons, hc]
      ring
    · rw [if_neg hc, ih acc h0 (by omega)]
      simp [territoriosDe, List.countP_cons, hc]

theorem contarCor_eq (mapa : List Territorio) (cor : CStr)
    (hlen : (mapa.length : Int) ≤ INT_MAX) :
    contarCor mapa cor = (territoriosDe mapa cor : Int) := by
  unfold INT_MAX at hlen
  unfold contarCor
  rw [contarCor_foldl mapa cor 0 (le_refl 0) (by omega)]
  simp

theorem valorDecimal_cons (c : Char) (t : CStr) :
    valorDecimal (c :: t) = valorDigito c * 10 ^ t.length + valorDecimal t := by
  unfold valorDecimal
  simp [Nat.ofDigits_append, Nat.ofDigits_singleton]
  ring

theorem valorDecimal_snoc (t : CStr) (c : Char) :
    valorDecimal (t ++ [c]) = 10 * valorDecimal t + valorDigito c := by
  unfold valorDecimal
  simp [Nat.ofDigits_cons]
  ring

theorem lerDigitos_run (ds post : CStr) (acc : Nat)
    (hds : ∀ c ∈ ds, ehDigito c = true) (hpost : ∀ c ∈ post.head?, ehDigito c = false) :
    lerDigitos acc (ds ++ post) = acc * 10 ^ ds.length + valorDecimal ds := by
  induction ds generalizing acc with
  | nil =>
    cases post with
    | nil => simp [lerDigitos, valorDecimal]
    | cons c t =>
      have : ehDigito c = false := hpost c (by simp)
      simp [lerDigitos, valorDecimal, this]
  | cons c t ih =>
    have hc : ehDigito c = true := hds c (by simp)
    have ht : ∀ x ∈ t, ehDigito x = true := fun x hx => hds x (by simp [hx])
    have step : lerDigitos acc (c :: t ++ post)
        = lerDigitos (acc * 10 + valorDigito c) (t ++ post) := by
      simp [lerDigitos, hc]
    rw [step, ih _ ht, valorDecimal_cons, List.length_cons]
    ring

theorem ehEspaco_of_digito {c : Char} (h : ehDigito c = true) : ehEspaco c = false := by
  cases hs : ehEspaco c with
  | false => rfl
  | true =>
    exfalso
    simp only [ehEspaco, Bool.or_eq_true, decide_eq_true_eq] at hs
    rcases hs with ((((hs | hs) | hs) | hs) | hs) | hs <;> subst hs <;> revert h <;> decide

theorem sinal_of_digito {c : Char} (h : ehDigito c = true) : c ≠ '-' ∧ c ≠ '+' := by
  constructor <;> intro hs <;> subst hs <;> revert h <;> decide

theorem atoi_run (ds post : CStr) (hne : ds ≠ [])
    (hds : ∀ c ∈ ds, ehDigito c = true) (hpost : ∀ c ∈ post.head?, ehDigito c = false) :
    atoi (ds ++ post) = wrap32 (valorDecimal ds) := by
  cases ds with
  | nil => exact absurd rfl hne
  | cons c t =>
    have hc : ehDigito c = true := hds c (by simp)
    have hsp := ehEspaco_of_digito hc
    have hsg := sinal_of_digito hc
    have hdrop : List.dropWhile ehEspaco (c :: t ++ post) = c :: (t ++ post) := by
      simp [List.dropWhile, hsp]
    have hrun := lerDigitos_run (c :: t) post 0 hds hpost
    simp only [List.cons_append] at hrun
    unfold atoi
    rw [hdrop]
    split
    · rename_i heq
      exact absurd (List.cons.inj heq).1 hsg.1
    · rename_i heq
      exact absurd (List.cons.inj heq).1 hsg.2
    · rw [hrun]; simp

theorem extrairN_skip (pre s : CStr) (hpre : ∀ c ∈ pre, ehDigito c = false) :
    extrairN (pre ++ s) = extrairN s := by
  induction pre with
  | nil => rfl
  | cons c t ih =>
    have hc : ehDigito c = false := hpre c (by simp)
    have ht : ∀ x ∈ t, ehDigito x = false := fun x hx => hpre x (by simp [hx])
    simp [extrairN, hc, ih ht]

theorem extrairN_sem_digitos (s : CStr) (h : ∀ c ∈ s, ehDigito c = false) :
    extrairN s = 0 := by
  have := extrairN_skip s [] h
  simpa [extrairN] using this

theorem extrairN_run (pre ds post : CStr) (h : primeiraSequencia pre ds post) :
    extrairN (pre ++ ds ++ post) = wrap32 (valorDecimal ds) := by
  obtain ⟨hpre, hne, hds, hpost⟩ := h
  rw [List.append_assoc, extrairN_skip pre _ hpre]
  cases ds with
  | nil => exact absurd rfl hne
  | cons c t =>
    have hc : ehDigito c = true := hds c (by simp)
    have : extrairN (c :: t ++ post) = atoi (c :: t ++ post) := by
      simp [extrairN, hc]
    rw [this]
    exact atoi_run (c :: t) post hne hds hpost

/-- When one of the two counting classes matches and the extracted number is positive, the
evaluator answers by comparing the player's territory count with that number. -/
theorem verificarMissao_contagem (missao : CStr) (mapa : List Territorio) (cor : CStr)
    (hk : (palavraPossuir <:+: missao ∧ palavraTerritorios <:+: missao) ∨
      palavraConquistar <:+: missao)
    (hN : 0 < extrairN missao) :
    verificarMissao missao mapa cor
      = if contarCor mapa cor ≥ extrairN missao then 1 else 0 := by
  unfold verificarMissao classePossuir classeConquistar
  simp only [strstr_isSome_iff, gt_iff_lt, hN, if_true]
  by_cases h1 : palavraPossuir <:+: missao ∧ palavraTerritorios <:+: missao
  · simp [h1]
  · have h2 : palavraConquistar <:+: missao := hk.resolve_left h1
    simp [h1, h2]

/-- When neither counting class returns, the evaluator's answer is the one of the
elimination class, or `0`. -/
theorem verificarMissao_sem_contagem (missao : CStr) (mapa : List Territorio) (cor : CStr)
    (hN : extrairN missao ≤ 0) :
    verificarMissao missao mapa cor = (classeEliminar missao mapa).getD 0 := by
  have hN2 : ¬ 0 < extrairN missao := not_lt.mpr hN
  unfold verificarMissao classePossuir classeConquistar
  simp only [gt_iff_lt, hN2, if_false, ite_self]
  cases classeEliminar missao mapa <;> rfl

theorem digitChar_digito (k : Nat) (hk : k < 10) :
    ehDigito (Nat.digitChar k) = true ∧ valorDigito (Nat.digitChar k) = k := by
  interval_cases k <;> decide

theorem toDigitsCore_spec (fuel n : Nat) (ds : CStr) (h : n < fuel) :
    ∃ L : CStr, Nat.toDigitsCore 10 fuel n ds = L ++ ds ∧ L ≠ [] ∧
      (∀ c ∈ L, ehDigito c = true) ∧ valorDecimal L = n := by
  induction fuel generalizing n ds with
  | zero => omega
  | succ f ih =>
    have hd := digitChar_digito (n % 10) (Nat.mod_lt _ (by decide))
    unfold Nat.toDigitsCore
    by_cases h0 : n / 10 = 0
    · refine ⟨[Nat.digitChar (n % 10)], by simp [h0], by simp, ?_, ?_⟩
      · intro c hc
        rw [List.mem_singleton] at hc
        rw [hc]; exact hd.1
      · have := valorDecimal_cons (Nat.digitChar (n % 10)) []
        rw [this, hd.2]
        simp [valorDecimal]
        omega
    · obtain ⟨L, hL, _, hLd, hLv⟩ := ih (n / 10) (Nat.digitChar (n % 10) :: ds) (by omega)
      refine ⟨L ++ [Nat.digitChar (n % 10)], ?_, by simp, ?_, ?_⟩
      · simp [h0, hL]
      · intro c hc
        rw [List.mem_append, List.mem_singleton] at hc
        rcases hc with hc | hc
        · exact hLd c hc
        · rw [hc]; exact hd.1
      · rw [valorDecimal_snoc, hLv, hd.2]
        omega

theorem toDigits_spec (n : Nat) :
    Nat.toDigits 10 n ≠ [] ∧ (∀ c ∈ Nat.toDigits 10 n, ehDigito c = true) ∧
      valorDecimal (Nat.toDigits 10 n) = n := by
  obtain ⟨L, hL, hne, hd, hv⟩ := toDigitsCore_spec (n + 1) n [] (by omega)
  unfold Nat.toDigits
  rw [hL, List.append_nil]
  exact ⟨hne, hd, hv⟩

theorem letra_nao_digito {c : Char} (h : c.isAlpha = true) : ehDigito c = false := by
  simp only [Char.isAlpha, Char.isUpper, Char.isLower, Bool.or_eq_true, Bool.and_eq_true,
    decide_eq_true_eq, ge_iff_le] at h
  simp only [ehDigito, decide_eq_false_iff_not, not_and, Char.le_def]
  intro h0 h9
  have e0 : ('0' : Char).val = 48 := rfl
  have e9 : ('9' : Char).val = 57 := rfl
  rw [e0] at h0
  rw [e9] at h9
  rw [UInt32.le_def, BitVec.le_def] at h0 h9
  rcases h with ⟨h1, h2⟩ | ⟨h1, h2⟩ <;> rw [UInt32.le_def, BitVec.le_def] at h1 h2 <;>
    simp at h0 h9 h1 h2 <;> omega

theorem letra_nao_separador {c : Char} (h : c.isAlpha = true) : c ≠ ' ' ∧ c ≠ '.' := by
  constructor <;> intro hs <;> subst hs <;> revert h <;> decide
theorem strchr_none_of_not_mem (s : CStr) (ch : Char) (h : ch ∉ s) : strchr s ch = none := by
  induction s with
  | nil => rfl
  | cons x t ih =>
    have hx : x ≠ ch := fun e => h (by simp [e])
    have ht : ch ∉ t := fun e => h (by simp [e])
    simp [strchr, hx, ih ht]

theorem strrchr_none_of_not_mem (s : CStr) (ch : Char) (h : ch ∉ s) :
    strrchr s ch = none := by
  induction s with
  | nil => rfl
  | cons x t ih =>
    have hx : x ≠ ch := fun e => h (by simp [e])
    have ht : ch ∉ t := fun e => h (by simp [e])
    simp [strrchr, hx, ih ht]

theorem strrchr_append_of_not_mem (s1 s2 : CStr) (ch : Char) (h : ch ∉ s2) :
    strrchr (s1 ++ s2) ch = (strrchr s1 ch).map (fun r => r ++ s2) := by
  induction s1 with
  | nil => simp [strrchr, strrchr_none_of_not_mem s2 ch h]
  | cons x t ih =>
    simp only [List.cons_append, strrchr, List.append_eq]
    rw [ih]
    cases strrchr t ch with
    | some r => simp
    | none =>
      by_cases hx : x = ch <;> simp [hx]

theorem corAlvoDe_sem_ponto (c : CStr) (h : '.' ∉ c) : corAlvoDe (' ' :: c) = c.take 19 := by
  have h19 : '.' ∉ c.take 19 := fun e => h (List.mem_of_mem_take e)
  simp [corAlvoDe, strchr_none_of_not_mem _ _ h19]

theorem tropasDe_cons (t : Territorio) (ts : List Territorio) (alvo : CStr) :
    tropasDe (t :: ts) alvo
      = if t.cor = alvo then t.tropas + tropasDe ts alvo else tropasDe ts alvo := by
  unfold tropasDe
  by_cases h : t.cor = alvo <;> simp [List.filter_cons, h]

theorem tropasDe_nonneg (mapa : List Territorio) (alvo : CStr)
    (h0 : ∀ t ∈ mapa, t.cor = alvo → 0 ≤ t.tropas) : 0 ≤ tropasDe mapa alvo := by
  induction mapa with
  | nil => simp [tropasDe]
  | cons t ts ih =>
    have hts := ih (fun x hx => h0 x (by simp [hx]))
    rw [tropasDe_cons]
    split_ifs with hc
    · have := h0 t (by simp) hc
      omega
    · exact hts

theorem somarTropas_foldl (mapa : List Territorio) (alvo : CStr) (acc : Int)
    (hacc : 0 ≤ acc) (h0 : ∀ t ∈ mapa, t.cor = alvo → 0 ≤ t.tropas)
    (hmax : acc + tropasDe mapa alvo ≤ 2147483647) :
    mapa.foldl (fun total t => if t.cor = alvo then wrap32 (total + t.tropas) else total) acc
      = acc + tropasDe mapa alvo := by
  induction mapa generalizing acc with
  | nil => simp [tropasDe]
  | cons t ts ih =>
    have h0ts : ∀ x ∈ ts, x.cor = alvo → 0 ≤ x.tropas := fun x hx => h0 x (by simp [hx])
    have hts := tropasDe_nonneg ts alvo h0ts
    rw [tropasDe_cons] at hmax ⊢
    simp only [List.foldl_cons]
    by_cases hc : t.cor = alvo
    · have ht := h0 t (by simp) hc
      rw [if_pos hc] at hmax
      have hw : wrap32 (acc + t.tropas) = acc + t.tropas :=
        wrap32_of_range (by omega) (by omega)
      rw [if_pos hc, if_pos hc, hw, ih (acc + t.tropas) (by omega) h0ts (by omega)]
      ring
    · rw [if_neg hc] at hmax
      rw [if_neg hc, if_neg hc, ih acc hacc h0ts hmax]

theorem somarTropas_eq (mapa : List Territorio) (alvo : CStr)
    (h0 : ∀ t ∈ mapa, t.cor = alvo → 0 ≤ t.tropas) (hmax : tropasDe mapa alvo ≤ INT_MAX) :
    somarTropas mapa alvo = tropasDe mapa alvo := by
  unfold INT_MAX at hmax
  unfold somarTropas
  rw [somarTropas_foldl mapa alvo 0 (le_refl 0) h0 (by omega)]
  simp

theorem tropasDe_eq_zero_iff (mapa : List Territorio) (alvo : CStr)
    (h0 : ∀ t ∈ mapa, t.cor = alvo → 0 ≤ t.tropas) :
    tropasDe mapa alvo = 0 ↔ ∀ t ∈ mapa, t.cor = alvo → t.tropas = 0 := by
  induction mapa with
  | nil => simp [tropasDe]
  | cons t ts ih =>
    have h0ts : ∀ x ∈ ts, x.cor = alvo → 0 ≤ x.tropas := fun x hx => h0 x (by simp [hx])
    have hts := tropasDe_nonneg ts alvo h0ts
    have ih' := ih h0ts
    rw [tropasDe_cons]
    by_cases hc : t.cor = alvo
    · have ht := h0 t (by simp) hc
      rw [if_pos hc]
      constructor
      · intro hs x hx hxc
        rcases List.mem_cons.mp hx with rfl | hx
        · omega
        · exact ih'.mp (by omega) x hx hxc
      · intro hall
        have h1 := hall t (by simp) hc
        have h2 := ih'.mpr (fun x hx => hall x (by simp [hx]))
        omega
    · rw [if_neg hc, ih']
      constructor
      · intro hall x hx hxc
        rcases List.mem_cons.mp hx with rfl | hx
        · exact absurd hxc hc
        · exact hall x hx hxc
      · intro hall x hx
        exact hall x (by simp [hx])

theorem tropasDe_take (mapa : List Territorio) (c : CStr)
    (hv : ∀ t ∈ mapa, t.cor.length ≤ 9) : tropasDe mapa (c.take 19) = tropasDe mapa c := by
  induction mapa with
  | nil => simp [tropasDe]
  | cons t ts ih =>
    have ht := hv t (by simp)
    rw [tropasDe_cons, tropasDe_cons, ih (fun x hx => hv x (by simp [hx]))]
    by_cases hlen : c.length ≤ 19
    · rw [List.take_of_length_le hlen]
    · have h1 : ¬ t.cor = c.take 19 := by
        intro e
        have := congrArg List.length e
        rw [List.length_take] at this
        omega
      have h2 : ¬ t.cor = c := by
        intro e
        have := congrArg List.length e
        omega
      rw [if_neg h1, if_neg h2]

theorem strchr_length_le (s nl : CStr) (ch : Char) (h : strchr s ch = some nl) :
    nl.length ≤ s.length := by
  induction s with
  | nil => simp [strchr] at h
  | cons x t ih =>
    unfold strchr at h
    by_cases hx : x = ch
    · rw [if_pos hx] at h
      cases h
      exact le_refl _
    · rw [if_neg hx] at h
      have := ih h
      simp only [List.length_cons]
      omega

/-- Writing NUL at the first occurrence of `ch` keeps the characters before it. -/
theorem corte_eq_takeWhile (s : CStr) (ch : Char) :
    (match strchr s ch with
      | some nl => s.take (s.length - nl.length)
      | none => s) = s.takeWhile (fun x => decide (x ≠ ch)) := by
  induction s with
  | nil => simp [strchr]
  | cons x t ih =>
    unfold strchr
    by_cases hx : x = ch
    · simp [hx]
    · rw [if_neg hx]
      have htw : (x :: t).takeWhile (fun y => decide (y ≠ ch))
          = x :: t.takeWhile (fun y => decide (y ≠ ch)) := by
        simp [List.takeWhile_cons, hx]
      rw [htw, ← ih]
      cases hs : strchr t ch with
      | none => rfl
      | some nl =>
        have hle := strchr_length_le t nl ch hs
        have : (x :: t).length - nl.length = (t.length - nl.length) + 1 := by
          simp only [List.length_cons]; omega
        simp only [this, List.take_succ_cons]

theorem corAlvoDe_eq (last : CStr) :
    corAlvoDe last = ((last.drop 1).take 19).takeWhile (fun x => decide (x ≠ '.')) := by
  unfold corAlvoDe
  exact corte_eq_takeWhile _ '.'

theorem strrchr_concat (a : CStr) (ch : Char) : strrchr (a ++ [ch]) ch = some [ch] := by
  induction a with
  | nil => simp [strrchr]
  | cons x t ih =>
    simp only [List.cons_append, strrchr, List.append_eq]
    rw [ih]

theorem strrchr_ultimo (a b : CStr) (ch : Char) (hb : ch ∉ b) :
    strrchr (a ++ ch :: b) ch = some (ch :: b) := by
  have h := strrchr_append_of_not_mem (a ++ [ch]) b ch hb
  rw [strrchr_concat] at h
  simpa using h

theorem exists_ultimo (s : CStr) (ch : Char) (h : ch ∈ s) :
    ∃ a b, s = a ++ ch :: b ∧ ch ∉ b := by
  induction s with
  | nil => simp at h
  | cons x t ih =>
    by_cases ht : ch ∈ t
    · obtain ⟨a, b, hab, hb⟩ := ih ht
      exact ⟨x :: a, b, by simp [hab], hb⟩
    · have hx : ch = x := by
        rcases List.mem_cons.mp h with hx | hx
        · exact hx
        · exact absurd hx ht
      exact ⟨[], t, by simp [hx], ht⟩

theorem aposUltimo_append (a b : CStr) (ch : Char) (hb : ch ∉ b) :
    ((a ++ ch :: b).reverse.takeWhile (fun x => decide (x ≠ ch))).reverse = b := by
  have hall : ∀ x ∈ b.reverse, (fun x => decide (x ≠ ch)) x = true := by
    intro x hx
    have : x ≠ ch := fun e => hb (by rw [← e]; exact List.mem_reverse.mp hx)
    simp [this]
  have hrev : (a ++ ch :: b).reverse = b.reverse ++ ch :: a.reverse := by simp
  rw [hrev, List.takeWhile_append_of_pos hall]
  simp [List.takeWhile_cons]

/-- When the phrase has a space, `strrchr` finds the last one and `corAlvoDe` yields the
effective target colour. -/
theorem corAlvoDe_strrchr (missao : CStr) (h : ' ' ∈ missao) :
    ∃ last, strrchr missao ' ' = some last ∧ corAlvoDe last = alvoEfetivo missao := by
  obtain ⟨a, b, rfl, hb⟩ := exists_ultimo missao ' ' h
  refine ⟨' ' :: b, strrchr_ultimo a b ' ' hb, ?_⟩
  rw [corAlvoDe_eq]
  unfold alvoEfetivo
  rw [aposUltimo_append a b ' ' hb]
  rfl
theorem infix_ponto (kw s : CStr) (hne : kw ≠ []) (hk : '.' ∉ kw) :
    kw <:+: s ++ ['.'] ↔ kw <:+: s := by
  rw [List.infix_concat_iff]
  constructor
  · rintro (⟨t, ht⟩ | h)
    · exfalso
      have hrev := congrArg List.reverse ht
      simp only [List.reverse_append, List.reverse_cons, List.reverse_nil, List.nil_append,
        List.singleton_append] at hrev
      cases hkr : kw.reverse with
      | nil => exact hne (List.reverse_eq_nil_iff.mp hkr)
      | cons y r =>
        rw [hkr, List.cons_append] at hrev
        have hy : y = '.' := (List.cons.inj hrev).1
        apply hk
        rw [← hy, ← List.mem_reverse, hkr]
        exact List.mem_cons_self y r
    · exact h
  · exact Or.inr

theorem lerDigitos_ponto (s : CStr) (acc : Nat) :
    lerDigitos acc (s ++ ['.']) = lerDigitos acc s := by
  induction s generalizing acc with
  | nil =>
    have : ehDigito '.' = false := by decide
    simp [lerDigitos, this]
  | cons c t ih =>
    simp only [List.cons_append, lerDigitos, List.append_eq, ih]

theorem atoi_digito (c : Char) (t : CStr) (hc : ehDigito c = true) :
    atoi (c :: t) = wrap32 ((lerDigitos 0 (c :: t) : Nat) : Int) := by
  have hsp := ehEspaco_of_digito hc
  have hsg := sinal_of_digito hc
  have hdrop : List.dropWhile ehEspaco (c :: t) = c :: t := by
    simp [List.dropWhile, hsp]
  unfold atoi
  rw [hdrop]
  split
  · rename_i heq
    exact absurd (List.cons.inj heq).1 hsg.1
  · rename_i heq
    exact absurd (List.cons.inj heq).1 hsg.2
  · rfl

theorem extrairN_ponto (s : CStr) : extrairN (s ++ ['.']) = extrairN s := by
  induction s with
  | nil =>
    have : ehDigito '.' = false := by decide
    simp [extrairN, this]
  | cons c t ih =>
    simp only [List.cons_append, extrairN, List.append_eq]
    by_cases hc : ehDigito c = true
    · rw [if_pos hc, if_pos hc, atoi_digito c _ hc, atoi_digito c _ hc]
      have := lerDigitos_ponto (c :: t) 0
      simp only [List.cons_append] at this
      rw [this]
    · rw [if_neg hc, if_neg hc, ih]

theorem corAlvoDe_ponto (w : CStr) (hpt : '.' ∉ w) :
    corAlvoDe (' ' :: w ++ ['.']) = corAlvoDe (' ' :: w) := by
  have hall : ∀ x ∈ w, (fun x => decide (x ≠ '.')) x = true := by
    intro x hx
    have : x ≠ '.' := fun e => hpt (by rw [← e]; exact hx)
    simp [this]
  have hall19 : ∀ x ∈ w.take 19, (fun x => decide (x ≠ '.')) x = true :=
    fun x hx => hall x (List.mem_of_mem_take hx)
  rw [corAlvoDe_eq, corAlvoDe_eq]
  simp only [List.cons_append, List.drop_succ_cons, List.drop_zero]
  by_cases hlen : 19 ≤ w.length
  · rw [List.take_append_of_le_length hlen]
  · have h1 : (w ++ ['.']).take 19 = w ++ ['.'] :=
      List.take_of_length_le (by simp; omega)
    have h2 : w.take 19 = w := List.take_of_length_le (by omega)
    rw [h1, h2, List.takeWhile_append_of_pos hall, List.takeWhile_eq_self_iff.mpr hall]
    simp [List.takeWhile_cons]

/-- A final period after the colour word does not change the evaluator's answer. -/
theorem verificarMissao_ponto_final (pre w : CStr) (mapa : List Territorio) (cor : CStr)
    (hsp : ' ' ∉ w) (hpt : '.' ∉ w) :
    verificarMissao (pre ++ ' ' :: w ++ ['.']) mapa cor
      = verificarMissao (pre ++ ' ' :: w) mapa cor := by
  have hl1 : strrchr (pre ++ ' ' :: w ++ ['.']) ' ' = some (' ' :: w ++ ['.']) := by
    have := strrchr_ultimo pre (w ++ ['.']) ' ' (by
      intro e
      rcases List.mem_append.mp e with e | e
      · exact hsp e
      · simp at e)
    simpa using this
  have hl2 : strrchr (pre ++ ' ' :: w) ' ' = some (' ' :: w) := strrchr_ultimo pre w ' ' hsp
  unfold verificarMissao classePossuir classeConquistar classeEliminar
  simp only [strstr_isSome_iff, extrairN_ponto, hl1, hl2, corAlvoDe_ponto w hpt,
    infix_ponto palavraPossuir _ (by decide) (by decide),
    infix_ponto palavraTerritorios _ (by decide) (by decide),
    infix_ponto palavraConquistar _ (by decide) (by decide),
    infix_ponto fraseEliminar _ (by decide) (by decide)]

/-! ## Combat resolver: theorems -/

/-- C1: when the two territories have the same colour, or the attacker has at most one
troop, `atacar` returns both territories unchanged (name, colour and troops), writes
no line and draws no random number. -/
theorem atacar_noop (a d : Territorio) (rng : Rand)
    (h : a.cor = d.cor ∨ a.tropas ≤ 1) :
    (atacar a d rng).atacante = a ∧ (atacar a d rng).defensor = d ∧
      (atacar a d rng).saida = [] ∧ (atacar a d rng).rng = rng := by
  unfold atacar
  rcases h with h | h
  · simp [h]
  · by_cases hc : a.cor = d.cor <;> simp [hc, h]

theorem atacar_noop_witness :
    ((⟨"T1".toList, azul, 1⟩ : Territorio).cor = (⟨"T2".toList, vermelho, 4⟩ : Territorio).cor
        ∨ (⟨"T1".toList, azul, 1⟩ : Territorio).tropas ≤ 1) ∧
      (atacar ⟨"T1".toList, azul, 1⟩ ⟨"T2".toList, vermelho, 4⟩ (rngDe 5 0)).saida = [] :=
  ⟨Or.inr (by decide),
    (atacar_noop ⟨"T1".toList, azul, 1⟩ ⟨"T2".toList, vermelho, 4⟩ (rngDe 5 0)
      (Or.inr (by decide))).2.2.1⟩

/-- C2: with a valid attacker holding more than one troop, a defender of another
colour and an attacker die higher than the defender die, the defender takes the
attacker's colour and `max 1 (tropas / 2)` troops (floor division), and the attacker
keeps `max 0 (tropas - max 1 (tropas / 2))`.  The dice are `dado` of the first and of
the second value drawn; they take every value of 1..6 and no other (`dado_range`,
`dado_surj`). -/
theorem atacar_atacante_vence (a d : Territorio) (rng : Rand)
    (hv : a.valido) (ht : 1 < a.tropas) (hc : a.cor ≠ d.cor)
    (hd : dado (rng.seq (rng.pos + 1)) < dado (rng.seq rng.pos)) :
    (atacar a d rng).defensor.cor = a.cor ∧
      (atacar a d rng).defensor.tropas = max 1 (a.tropas / 2) ∧
      (atacar a d rng).atacante.tropas = max 0 (a.tropas - max 1 (a.tropas / 2)) := by
  obtain ⟨_, hlen, _, hmax⟩ := hv
  have hdiv : Int.tdiv a.tropas 2 = a.tropas / 2 := tdiv_two_of_nonneg (by omega)
  have hhalf : ¬ a.tropas / 2 < 1 := by omega
  have hmx : max 1 (a.tropas / 2) = a.tropas / 2 := max_eq_right (by omega)
  have hw : wrap32 (a.tropas - a.tropas / 2) = a.tropas - a.tropas / 2 :=
    wrap32_of_range (by unfold INT_MAX at hmax; omega) (by unfold INT_MAX at hmax; omega)
  have hpos : ¬ a.tropas - a.tropas / 2 < 0 := by omega
  have hm0 : max 0 (a.tropas - a.tropas / 2) = a.tropas - a.tropas / 2 :=
    max_eq_right (by omega)
  have hnle : ¬ a.tropas ≤ 1 := by omega
  simp only [atacar, rand, if_neg hc, if_neg hnle, gt_iff_lt, if_pos hd, hdiv, if_neg hhalf,
    hw, if_neg hpos, hmx, hm0, List.take_of_length_le hlen, and_self]

theorem atacar_atacante_vence_witness :
    (⟨"T1".toList, azul, 4⟩ : Territorio).valido ∧
      (atacar ⟨"T1".toList, azul, 4⟩ ⟨"T2".toList, vermelho, 2⟩ (rngDe 5 0)).defensor.cor = azul ∧
      (atacar ⟨"T1".toList, azul, 4⟩ ⟨"T2".toList, vermelho, 2⟩ (rngDe 5 0)).defensor.tropas = 2 ∧
      (atacar ⟨"T1".toList, azul, 4⟩ ⟨"T2".toList, vermelho, 2⟩ (rngDe 5 0)).atacante.tropas = 2 :=
  ⟨by decide,
    atacar_atacante_vence ⟨"T1".toList, azul, 4⟩ ⟨"T2".toList, vermelho, 2⟩ (rngDe 5 0)
      (by decide) (by decide) (by decide) (by decide)⟩

/-- C3: with a valid attacker holding more than one troop, a defender of another
colour and a defender die at least the attacker die (ties included), the attacker
keeps `max 0 (tropas - 1)` troops and the defender is exactly as before.  The dice are
`dado` of the first and of the second value drawn. -/
theorem atacar_defensor_vence (a d : Territorio) (rng : Rand)
    (hv : a.valido) (ht : 1 < a.tropas) (hc : a.cor ≠ d.cor)
    (hd : dado (rng.seq rng.pos) ≤ dado (rng.seq (rng.pos + 1))) :
    (atacar a d rng).atacante.tropas = max 0 (a.tropas - 1) ∧
      (atacar a d rng).defensor.cor = d.cor ∧
      (atacar a d rng).defensor.tropas = d.tropas ∧
      (atacar a d rng).defensor = d := by
  obtain ⟨_, _, _, hmax⟩ := hv
  have hw : wrap32 (a.tropas - 1) = a.tropas - 1 :=
    wrap32_of_range (by omega) (by unfold INT_MAX at hmax; omega)
  have hpos : ¬ a.tropas - 1 < 0 := by omega
  have hm0 : max 0 (a.tropas - 1) = a.tropas - 1 := max_eq_right (by omega)
  have hnle : ¬ a.tropas ≤ 1 := by omega
  have hnd : ¬ dado (rng.seq (rng.pos + 1)) < dado (rng.seq rng.pos) := by omega
  simp only [atacar, rand, if_neg hc, if_neg hnle, gt_iff_lt, if_neg hnd, hw, if_neg hpos,
    hm0, and_self]

theorem atacar_defensor_vence_witness :
    (⟨"T1".toList, azul, 3⟩ : Territorio).valido ∧
      (atacar ⟨"T1".toList, azul, 3⟩ ⟨"T2".toList, vermelho, 4⟩ (rngDe 2 2)).atacante.tropas = 2 ∧
      (atacar ⟨"T1".toList, azul, 3⟩ ⟨"T2".toList, vermelho, 4⟩ (rngDe 2 2)).defensor =
        ⟨"T2".toList, vermelho, 4⟩ :=
  ⟨by decide,
    (atacar_defensor_vence ⟨"T1".toList, azul, 3⟩ ⟨"T2".toList, vermelho, 4⟩ (rngDe 2 2)
      (by decide) (by decide) (by decide) (by decide)).1,
    (atacar_defensor_vence ⟨"T1".toList, azul, 3⟩ ⟨"T2".toList, vermelho, 4⟩ (rngDe 2 2)
      (by decide) (by decide) (by decide) (by decide)).2.2.2⟩

/-- C4: if both territories have a non-negative troop count before `atacar`, both have
a non-negative troop count after it, whatever the colours, the troop counts and the
draws (no-op, attacker win or defender win). -/
theorem atacar_tropas_nonneg (a d : Territorio) (rng : Rand)
    (ha : 0 ≤ a.tropas) (hd : 0 ≤ d.tropas) :
    0 ≤ (atacar a d rng).atacante.tropas ∧ 0 ≤ (atacar a d rng).defensor.tropas := by
  unfold atacar
  by_cases hc : a.cor = d.cor
  · simp [hc, ha, hd]
  · by_cases ht : a.tropas ≤ 1
    · simp [hc, ht, ha, hd]
    · simp only [if_neg hc, if_neg ht]
      split_ifs <;> simp <;> omega

theorem atacar_tropas_nonneg_witness :
    (0 : Int) ≤ (⟨"T1".toList, azul, 2⟩ : Territorio).tropas ∧
      0 ≤ (atacar ⟨"T1".toList, azul, 2⟩ ⟨"T2".toList, vermelho, 5⟩ (rngDe 0 5)).atacante.tropas ∧
      0 ≤ (atacar ⟨"T1".toList, azul, 2⟩ ⟨"T2".toList, vermelho, 5⟩ (rngDe 0 5)).defensor.tropas :=
  ⟨by decide,
    atacar_tropas_nonneg ⟨"T1".toList, azul, 2⟩ ⟨"T2".toList, vermelho, 5⟩ (rngDe 0 5)
      (by decide) (by decide)⟩

/-! ## Mission evaluator: theorems -/

/-- C5: for a phrase that contains "Possuir" and "territorios" and whose first run of
decimal digits denotes a positive `N` that fits an `int`, `verificarMissao` returns `1`
exactly when the player owns at least `N` territories, and `0` otherwise, whatever else
the phrase contains. -/
theorem verificarMissao_possuir (pre ds post : CStr) (mapa : List Territorio) (cor : CStr)
    (hP : palavraPossuir <:+: pre ++ ds ++ post)
    (hT : palavraTerritorios <:+: pre ++ ds ++ post)
    (hseq : primeiraSequencia pre ds post)
    (hpos : 0 < valorDecimal ds) (hmax : (valorDecimal ds : Int) ≤ INT_MAX)
    (hlen : (mapa.length : Int) ≤ INT_MAX) :
    (verificarMissao (pre ++ ds ++ post) mapa cor = 1 ↔
        valorDecimal ds ≤ territoriosDe mapa cor) ∧
      (verificarMissao (pre ++ ds ++ post) mapa cor = 0 ↔
        territoriosDe mapa cor < valorDecimal ds) := by
  have hN : extrairN (pre ++ ds ++ post) = (valorDecimal ds : Int) := by
    rw [extrairN_run pre ds post hseq]
    exact wrap32_of_range (by omega) (by unfold INT_MAX at hmax; omega)
  rw [verificarMissao_contagem _ mapa cor (Or.inl ⟨hP, hT⟩) (by rw [hN]; exact_mod_cast hpos),
    hN, contarCor_eq mapa cor hlen]
  by_cases h : valorDecimal ds ≤ territoriosDe mapa cor
  · have h' : (territoriosDe mapa cor : Int) ≥ (valorDecimal ds : Int) := by exact_mod_cast h
    simp [h', h]
  · have h' : ¬ (territoriosDe mapa cor : Int) ≥ (valorDecimal ds : Int) := by
      intro hh; exact h (by exact_mod_cast hh)
    simp only [if_neg h']
    constructor
    · simp [h]
    · simp; omega

theorem verificarMissao_possuir_witness :
    primeiraSequencia "Possuir ".toList "3".toList " territorios".toList ∧
      verificarMissao "Possuir 3 territorios".toList mapaAzul3 azul = 1 ∧
      verificarMissao "Possuir 3 territorios".toList mapaAzul2 azul = 0 :=
  ⟨by decide,
    (verificarMissao_possuir "Possuir ".toList "3".toList " territorios".toList mapaAzul3 azul
      (by decide) (by decide) (by decide) (by decide) (by decide) (by decide)).1.mpr (by decide),
    (verificarMissao_possuir "Possuir ".toList "3".toList " territorios".toList mapaAzul2 azul
      (by decide) (by decide) (by decide) (by decide) (by decide) (by decide)).2.mpr (by decide)⟩

/-- C6: for every positive `N` that fits an `int`, written in decimal, the conquer phrase
"Conquistar N territorios seguidos" gets the same answer as the own-count phrase
"Possuir N territorios": `1` exactly when the player currently owns at least `N`
territories. -/
theorem verificarMissao_conquistar_eq_possuir (N : Nat) (mapa : List Territorio) (cor : CStr)
    (hpos : 0 < N) (hmax : (N : Int) ≤ INT_MAX) (hlen : (mapa.length : Int) ≤ INT_MAX) :
    verificarMissao
        ("Conquistar ".toList ++ Nat.toDigits 10 N ++ " territorios seguidos".toList) mapa cor
      = verificarMissao
        ("Possuir ".toList ++ Nat.toDigits 10 N ++ " territorios".toList) mapa cor ∧
    (verificarMissao
        ("Conquistar ".toList ++ Nat.toDigits 10 N ++ " territorios seguidos".toList) mapa cor
      = 1 ↔ N ≤ territoriosDe mapa cor) := by
  obtain ⟨hne, hdig, hval⟩ := toDigits_spec N
  have hw : wrap32 (N : Int) = N :=
    wrap32_of_range (by omega) (by unfold INT_MAX at hmax; omega)
  have hseqC : primeiraSequencia "Conquistar ".toList (Nat.toDigits 10 N)
      " territorios seguidos".toList := ⟨by decide, hne, hdig, by decide⟩
  have hseqP : primeiraSequencia "Possuir ".toList (Nat.toDigits 10 N)
      " territorios".toList := ⟨by decide, hne, hdig, by decide⟩
  have hNC := extrairN_run _ _ _ hseqC
  have hNP := extrairN_run _ _ _ hseqP
  rw [hval, hw] at hNC hNP
  have hkC : palavraConquistar <:+:
      "Conquistar ".toList ++ Nat.toDigits 10 N ++ " territorios seguidos".toList :=
    ⟨[], ' ' :: (Nat.toDigits 10 N ++ " territorios seguidos".toList), by
      simp [palavraConquistar]⟩
  have hkP : palavraPossuir <:+:
      "Possuir ".toList ++ Nat.toDigits 10 N ++ " territorios".toList :=
    ⟨[], ' ' :: (Nat.toDigits 10 N ++ " territorios".toList), by simp [palavraPossuir]⟩
  have hkT : palavraTerritorios <:+:
      "Possuir ".toList ++ Nat.toDigits 10 N ++ " territorios".toList :=
    ⟨"Possuir ".toList ++ Nat.toDigits 10 N ++ [' '], [], by simp [palavraTerritorios]⟩
  have hposI : (0 : Int) < N := by exact_mod_cast hpos
  rw [verificarMissao_contagem _ mapa cor (Or.inr hkC) (by rw [hNC]; exact hposI),
    verificarMissao_contagem _ mapa cor (Or.inl ⟨hkP, hkT⟩) (by rw [hNP]; exact hposI),
    hNC, hNP, contarCor_eq mapa cor hlen]
  refine ⟨rfl, ?_⟩
  by_cases h : N ≤ territoriosDe mapa cor
  · have h' : (territoriosDe mapa cor : Int) ≥ (N : Int) := by exact_mod_cast h
    simp [h', h]
  · have h' : ¬ (territoriosDe mapa cor : Int) ≥ (N : Int) := by
      intro hh; exact h (by exact_mod_cast hh)
    simp [h', h]

theorem verificarMissao_conquistar_eq_possuir_witness :
    verificarMissao "Conquistar 2 territorios seguidos".toList mapaAzul2 azul
      = verificarMissao "Possuir 2 territorios".toList mapaAzul2 azul ∧
    (verificarMissao "Conquistar 2 territorios seguidos".toList mapaAzul2 azul = 1 ↔
      2 ≤ territoriosDe mapaAzul2 azul) :=
  verificarMissao_conquistar_eq_possuir 2 mapaAzul2 azul (by decide) (by decide) (by decide)

/-- C9: a phrase that contains neither both "Possuir" and "territorios", nor "Conquistar",
nor "Eliminar todas as tropas da cor" (the empty phrase included) makes `verificarMissao`
return `0` on every map and for every player colour. -/
theorem verificarMissao_sem_classe (missao : CStr) (mapa : List Territorio) (cor : CStr)
    (h1 : ¬ (palavraPossuir <:+: missao ∧ palavraTerritorios <:+: missao))
    (h2 : ¬ palavraConquistar <:+: missao)
    (h3 : ¬ fraseEliminar <:+: missao) :
    verificarMissao missao mapa cor = 0 := by
  unfold verificarMissao classePossuir classeConquistar classeEliminar
  simp only [strstr_isSome_iff, if_neg h1, if_neg h2, if_neg h3]

theorem verificarMissao_sem_classe_witness :
    ¬ fraseEliminar <:+: ([] : CStr) ∧ verificarMissao [] mapaAzul3 azul = 0 :=
  ⟨by decide, verificarMissao_sem_classe [] mapaAzul3 azul (by decide) (by decide) (by decide)⟩

/-- C10, as stated, fails: a phrase of the conquer class without any digit falls through to
the elimination class, which returns `1` on a map without Red territories. -/
theorem verificarMissao_sem_numero_counterexample :
    palavraConquistar <:+: fraseMista ∧ (∀ c ∈ fraseMista, ehDigito c = false) ∧
      verificarMissao fraseMista [⟨"T1".toList, azul, 3⟩] azul = 1 := by
  decide

/-- C10, amended: a phrase of the own-count class or of the conquer class that has no digit,
or whose first run of digits denotes `0`, and that does not contain "Eliminar todas as
tropas da cor", makes `verificarMissao` return `0` on every map and for every colour. -/
theorem verificarMissao_sem_numero (missao : CStr) (mapa : List Territorio) (cor : CStr)
    (_hk : (palavraPossuir <:+: missao ∧ palavraTerritorios <:+: missao) ∨
      palavraConquistar <:+: missao)
    (hN : (∀ c ∈ missao, ehDigito c = false) ∨
      ∃ pre ds post, missao = pre ++ ds ++ post ∧ primeiraSequencia pre ds post ∧
        valorDecimal ds = 0)
    (hE : ¬ fraseEliminar <:+: missao) :
    verificarMissao missao mapa cor = 0 := by
  have h0 : extrairN missao ≤ 0 := by
    rcases hN with hN | ⟨pre, ds, post, rfl, hseq, hv⟩
    · rw [extrairN_sem_digitos missao hN]
    · rw [extrairN_run pre ds post hseq, hv]; decide
  rw [verificarMissao_sem_contagem missao mapa cor h0]
  unfold classeEliminar
  simp only [strstr_isSome_iff, if_neg hE, Option.getD_none]

theorem verificarMissao_sem_numero_witness :
    palavraPossuir <:+: "Possuir 0 territorios".toList ∧
      primeiraSequencia "Possuir ".toList "0".toList " territorios".toList ∧
      verificarMissao "Possuir 0 territorios".toList mapaAzul3 azul = 0 :=
  ⟨by decide, by decide,
    verificarMissao_sem_numero "Possuir 0 territorios".toList mapaAzul3 azul
      (Or.inl (by decide))
      (Or.inr ⟨"Possuir ".toList, "0".toList, " territorios".toList, by decide, by decide,
        by decide⟩)
      (by decide)⟩

/-- C7, as stated, fails: on four valid Red territories of 2^30 troops each, all troop
counts are non-negative and none is zero, yet the 32-bit total is `0` and
`verificarMissao` returns `1`. -/
theorem verificarMissao_eliminar_counterexample :
    mapaValido mapaTransbordo ∧ (∀ t ∈ mapaTransbordo, 0 ≤ t.tropas) ∧
      verificarMissao (prefixoEliminar ++ vermelho) mapaTransbordo azul = 1 ∧
      ¬ (∀ t ∈ mapaTransbordo, t.cor = vermelho → t.tropas = 0) := by
  decide

/-- C7, amended: for a colour word `c` made only of letters and a valid map whose troop
counts are all non-negative and whose troops of colour `c` total at most `INT_MAX`,
`verificarMissao` on "Eliminar todas as tropas da cor " followed by `c` returns `1`
exactly when every territory of colour `c` has no troops, that is when those troops sum
to `0`. -/
theorem verificarMissao_eliminar (c cor : CStr) (mapa : List Territorio)
    (hc : ∀ x ∈ c, x.isAlpha = true) (hv : mapaValido mapa)
    (h0 : ∀ t ∈ mapa, 0 ≤ t.tropas) (hsum : tropasDe mapa c ≤ INT_MAX) :
    (verificarMissao (prefixoEliminar ++ c) mapa cor = 1 ↔
        ∀ t ∈ mapa, t.cor = c → t.tropas = 0) ∧
      (verificarMissao (prefixoEliminar ++ c) mapa cor = 1 ↔ tropasDe mapa c = 0) := by
  have hpre : ∀ x ∈ prefixoEliminar, ehDigito x = false := by decide
  have hnd : ∀ x ∈ prefixoEliminar ++ c, ehDigito x = false := by
    intro x hx
    rcases List.mem_append.mp hx with hx | hx
    · exact hpre x hx
    · exact letra_nao_digito (hc x hx)
  have hsp : ' ' ∉ c := fun e => (letra_nao_separador (hc _ e)).1 rfl
  have hpt : '.' ∉ c := fun e => (letra_nao_separador (hc _ e)).2 rfl
  have hinf : fraseEliminar <:+: prefixoEliminar ++ c :=
    ⟨[], ' ' :: c, by simp [fraseEliminar, prefixoEliminar]⟩
  have hlast : strrchr (prefixoEliminar ++ c) ' ' = some (' ' :: c) := by
    rw [strrchr_append_of_not_mem _ _ _ hsp]
    have : strrchr prefixoEliminar ' ' = some [' '] := by decide
    rw [this]; rfl
  have hcor : ∀ t ∈ mapa, t.cor.length ≤ 9 := fun t ht => (hv.2 t ht).2.1
  have h0c : ∀ t ∈ mapa, t.cor = c → 0 ≤ t.tropas := fun t ht _ => h0 t ht
  have h0c19 : ∀ t ∈ mapa, t.cor = c.take 19 → 0 ≤ t.tropas := fun t ht _ => h0 t ht
  have htake := tropasDe_take mapa c hcor
  have hsoma : somarTropas mapa (c.take 19) = tropasDe mapa c := by
    rw [somarTropas_eq mapa (c.take 19) h0c19 (by rw [htake]; exact hsum), htake]
  have hres : verificarMissao (prefixoEliminar ++ c) mapa cor
      = if tropasDe mapa c = 0 then 1 else 0 := by
    rw [verificarMissao_sem_contagem _ mapa cor
      (by rw [extrairN_sem_digitos _ hnd])]
    unfold classeEliminar
    simp only [strstr_isSome_iff, if_pos hinf, hlast, corAlvoDe_sem_ponto c hpt, hsoma,
      Option.getD_some]
  have hiff : verificarMissao (prefixoEliminar ++ c) mapa cor = 1 ↔ tropasDe mapa c = 0 := by
    rw [hres]
    by_cases h : tropasDe mapa c = 0 <;> simp [h]
  exact ⟨hiff.trans (tropasDe_eq_zero_iff mapa c h0c), hiff⟩

theorem verificarMissao_eliminar_witness :
    mapaValido mapaVermelhoZero ∧
      verificarMissao "Eliminar todas as tropas da cor Red".toList mapaVermelhoZero azul = 1 ∧
      ¬ verificarMissao "Eliminar todas as tropas da cor Red".toList mapaAzul3 azul = 1 :=
  ⟨by decide,
    (verificarMissao_eliminar vermelho azul mapaVermelhoZero (by decide) (by decide)
      (by decide) (by decide)).1.mpr (by decide),
    fun h => absurd
      ((verificarMissao_eliminar vermelho azul mapaAzul3 (by decide) (by decide)
        (by decide) (by decide)).2.mp h) (by decide)⟩

/-- C8, as stated, fails: on the phrase ending in "cor R.ed", which only the elimination
class decides, the last whitespace-delimited token has no trailing period and is "R.ed",
while the code cuts the word at its first period and looks for colour "R"; on a map whose
only territory has colour "R.ed" and 5 troops the code returns `1`, where the stated
target would give `0`. -/
theorem verificarMissao_alvo_counterexample :
    fraseEliminar <:+: frasePontoInterno ∧
      classePossuir frasePontoInterno [⟨"T1".toList, "R.ed".toList, 5⟩] azul = none ∧
      classeConquistar frasePontoInterno [⟨"T1".toList, "R.ed".toList, 5⟩] azul = none ∧
      alvoEspecificado frasePontoInterno = "R.ed".toList ∧
      alvoEfetivo frasePontoInterno = "R".toList ∧
      verificarMissao frasePontoInterno [⟨"T1".toList, "R.ed".toList, 5⟩] azul = 1 ∧
      (if somarTropas [⟨"T1".toList, "R.ed".toList, 5⟩] (alvoEspecificado frasePontoInterno) = 0
        then (1 : Int) else 0) = 0 := by
  decide

/-- C8, amended: for a phrase that contains "Eliminar todas as tropas da cor" and that
neither counting class decides, the target colour is the text after the last space
character, limited to its first 19 characters and cut at its first period, and
`verificarMissao` returns `1` exactly when the 32-bit troop total of that colour is `0`;
and for every map and player colour a phrase ending in " Red." gets the same answer as the
same phrase ending in " Red". -/
theorem verificarMissao_alvo (missao pre : CStr) (mapa : List Territorio) (cor : CStr)
    (hE : fraseEliminar <:+: missao)
    (h1 : classePossuir missao mapa cor = none)
    (h2 : classeConquistar missao mapa cor = none) :
    verificarMissao missao mapa cor
        = (if somarTropas mapa (alvoEfetivo missao) = 0 then 1 else 0) ∧
      verificarMissao (pre ++ " Red.".toList) mapa cor
        = verificarMissao (pre ++ " Red".toList) mapa cor := by
  constructor
  · have hsp : ' ' ∈ missao := hE.subset (by decide)
    obtain ⟨last, hlast, halvo⟩ := corAlvoDe_strrchr missao hsp
    unfold verificarMissao
    rw [h1, h2]
    unfold classeEliminar
    simp only [strstr_isSome_iff, if_pos hE, hlast, halvo]
  · have h := verificarMissao_ponto_final pre vermelho mapa cor (by decide) (by decide)
    have e1 : pre ++ " Red.".toList = pre ++ ' ' :: vermelho ++ ['.'] := by
      simp [vermelho]
    have e2 : pre ++ " Red".toList = pre ++ ' ' :: vermelho := by
      simp [vermelho]
    rw [e1, e2]
    exact h

theorem verificarMissao_alvo_witness :
    fraseEliminar <:+: "Eliminar todas as tropas da cor Red.".toList ∧
      verificarMissao "Eliminar todas as tropas da cor Red.".toList mapaVermelhoZero azul
        = (if somarTropas mapaVermelhoZero vermelho = 0 then 1 else 0) ∧
      verificarMissao "Eliminar todas as tropas da cor Red.".toList mapaAzul3 azul
        = verificarMissao "Eliminar todas as tropas da cor Red".toList mapaAzul3 azul :=
  ⟨by decide,
    (verificarMissao_alvo "Eliminar todas as tropas da cor Red.".toList [] mapaVermelhoZero azul
      (by decide) (by decide) (by decide)).1,
    (verificarMissao_alvo "Eliminar todas as tropas da cor Red.".toList
      "Eliminar todas as tropas da cor".toList mapaAzul3 azul
      (by decide) (by decide) (by decide)).2⟩

/-! ## Mission assignment: theorems -/

/-- C11: with an empty catalog (`totalMissoes <= 0`) `atribuirMissao` leaves the
destination exactly as it was and draws no random number, whatever the destination
content, the array and the generator. -/
theorem atribuirMissao_vazio (destino : CStr) (missoes : List CStr) (totalMissoes : Int)
    (rng : Rand) (h : totalMissoes ≤ 0) :
    atribuirMissao destino missoes totalMissoes rng = some (destino, rng) := by
  unfold atribuirMissao
  rw [if_pos h]

theorem atribuirMissao_vazio_witness :
    (0 : Int) ≤ 0 ∧
      atribuirMissao "antes".toList [] 0 (rngLista [3]) = some ("antes".toList, rngLista [3]) :=
  ⟨le_refl 0, atribuirMissao_vazio "antes".toList [] 0 (rngLista [3]) (le_refl 0)⟩

/-- C12: with a non-empty catalog of `totalMissoes` phrases, `atribuirMissao` draws one
number `r`, reads index `r % totalMissoes`, which lies in `0..totalMissoes-1`, and leaves
in the destination exactly the catalog phrase at that index, a member of the catalog. -/
theorem atribuirMissao_sorteia (destino : CStr) (missoes : List CStr) (rng : Rand)
    (hne : missoes ≠ []) :
    ∃ missao : CStr,
      rng.seq rng.pos % missoes.length < missoes.length ∧
      missoes.get? (rng.seq rng.pos % missoes.length) = some missao ∧
      missao ∈ missoes ∧
      atribuirMissao destino missoes (missoes.length : Int) rng
        = some (missao, ⟨rng.seq, rng.pos + 1⟩) := by
  have hlen : 0 < missoes.length := List.length_pos.mpr hne
  have hidx : rng.seq rng.pos % missoes.length < missoes.length := Nat.mod_lt _ hlen
  obtain ⟨missao, hm⟩ : ∃ m, missoes.get? (rng.seq rng.pos % missoes.length) = some m :=
    ⟨missoes.get ⟨_, hidx⟩, List.get?_eq_get hidx⟩
  refine ⟨missao, hidx, hm, List.get?_mem hm, ?_⟩
  have hpos : ¬ ((missoes.length : Int) ≤ 0) := by omega
  have htm : (Int.tmod (rng.seq rng.pos : Int) (missoes.length : Int)).toNat
      = rng.seq rng.pos % missoes.length := by
    rw [Int.tmod_eq_emod (by omega) (by omega)]
    have : ((rng.seq rng.pos : Int) % (missoes.length : Int))
        = ((rng.seq rng.pos % missoes.length : Nat) : Int) := by
      exact_mod_cast rfl
    rw [this, Int.toNat_ofNat]
  unfold atribuirMissao
  simp only [if_neg hpos, rand, htm, hm]

theorem atribuirMissao_sorteia_witness :
    missoesDisponiveis ≠ [] ∧
      ∃ missao : CStr,
        (rngLista [7]).seq (rngLista [7]).pos % missoesDisponiveis.length
          < missoesDisponiveis.length ∧
        missoesDisponiveis.get? ((rngLista [7]).seq (rngLista [7]).pos
          % missoesDisponiveis.length) = some missao ∧
        missao ∈ missoesDisponiveis ∧
        atribuirMissao [] missoesDisponiveis (missoesDisponiveis.length : Int) (rngLista [7])
          = some (missao, ⟨(rngLista [7]).seq, (rngLista [7]).pos + 1⟩) :=
  ⟨by decide, atribuirMissao_sorteia [] missoesDisponiveis (rngLista [7]) (by decide)⟩

/-! ## Combat resolver: frame and troop accounting -/

theorem atacar_vence_def (a d : Territorio) (rng : Rand)
    (hv : a.valido) (ht : 1 < a.tropas) (hc : a.cor ≠ d.cor)
    (hd : dado (rng.seq (rng.pos + 1)) < dado (rng.seq rng.pos)) :
    (atacar a d rng).atacante = ⟨a.nome, a.cor, a.tropas - a.tropas / 2⟩ ∧
      (atacar a d rng).defensor = ⟨d.nome, a.cor, a.tropas / 2⟩ ∧
      (atacar a d rng).rng = ⟨rng.seq, rng.pos + 2⟩ ∧
      (atacar a d rng).saida.length = 2 := by
  obtain ⟨_, hlen, _, hmax⟩ := hv
  have hdiv : Int.tdiv a.tropas 2 = a.tropas / 2 := tdiv_two_of_nonneg (by omega)
  have hhalf : ¬ a.tropas / 2 < 1 := by omega
  have hw : wrap32 (a.tropas - a.tropas / 2) = a.tropas - a.tropas / 2 :=
    wrap32_of_range (by unfold INT_MAX at hmax; omega) (by unfold INT_MAX at hmax; omega)
  have hpos : ¬ a.tropas - a.tropas / 2 < 0 := by omega
  have hnle : ¬ a.tropas ≤ 1 := by omega
  simp only [atacar, rand, if_neg hc, if_neg hnle, gt_iff_lt, if_pos hd, hdiv, if_neg hhalf,
    hw, if_neg hpos, List.take_of_length_le hlen, List.length_cons, List.length_nil,
    and_self]

theorem atacar_perde_def (a d : Territorio) (rng : Rand)
    (hv : a.valido) (ht : 1 < a.tropas) (hc : a.cor ≠ d.cor)
    (hd : dado (rng.seq rng.pos) ≤ dado (rng.seq (rng.pos + 1))) :
    (atacar a d rng).atacante = ⟨a.nome, a.cor, a.tropas - 1⟩ ∧
      (atacar a d rng).defensor = d ∧
      (atacar a d rng).rng = ⟨rng.seq, rng.pos + 2⟩ ∧
      (atacar a d rng).saida.length = 2 := by
  obtain ⟨_, _, _, hmax⟩ := hv
  have hw : wrap32 (a.tropas - 1) = a.tropas - 1 :=
    wrap32_of_range (by omega) (by unfold INT_MAX at hmax; omega)
  have hpos : ¬ a.tropas - 1 < 0 := by omega
  have hnle : ¬ a.tropas ≤ 1 := by omega
  have hnd : ¬ dado (rng.seq (rng.pos + 1)) < dado (rng.seq rng.pos) := by omega
  simp only [atacar, rand, if_neg hc, if_neg hnle, gt_iff_lt, if_neg hnd, hw, if_neg hpos,
    List.length_cons, List.length_nil, and_self]

theorem atacar_noop_def (a d : Territorio) (rng : Rand)
    (h : a.cor = d.cor ∨ a.tropas ≤ 1) :
    (atacar a d rng).atacante = a ∧ (atacar a d rng).defensor = d := by
  unfold atacar
  rcases h with h | h
  · simp [h]
  · by_cases hc : a.cor = d.cor <;> simp [hc, h]

/-- The three ways a call of `atacar` can go. -/
theorem atacar_casos (a d : Territorio) (rng : Rand) :
    (a.cor = d.cor ∨ a.tropas ≤ 1) ∨
      (a.cor ≠ d.cor ∧ 1 < a.tropas ∧
        dado (rng.seq (rng.pos + 1)) < dado (rng.seq rng.pos)) ∨
      (a.cor ≠ d.cor ∧ 1 < a.tropas ∧
        dado (rng.seq rng.pos) ≤ dado (rng.seq (rng.pos + 1))) := by
  by_cases hc : a.cor = d.cor
  · exact Or.inl (Or.inl hc)
  · by_cases ht : a.tropas ≤ 1
    · exact Or.inl (Or.inr ht)
    · by_cases hd : dado (rng.seq (rng.pos + 1)) < dado (rng.seq rng.pos)
      · exact Or.inr (Or.inl ⟨hc, by omega, hd⟩)
      · exact Or.inr (Or.inr ⟨hc, by omega, by omega⟩)

/-- C16: `atacar` never changes the name of either territory nor the colour of the
attacker, whatever the territories and the draws; only the attacker's troops, the
defender's troops and the defender's colour can differ afterwards. -/
theorem atacar_preserva_nome_e_cor (a d : Territorio) (rng : Rand) :
    (atacar a d rng).atacante.nome = a.nome ∧ (atacar a d rng).defensor.nome = d.nome ∧
      (atacar a d rng).atacante.cor = a.cor := by
  unfold atacar
  by_cases hc : a.cor = d.cor
  · simp [hc]
  · by_cases ht : a.tropas ≤ 1
    · simp [hc, ht]
    · simp only [if_neg hc, if_neg ht]
      split_ifs <;> simp

/-- C19: for a valid attacker and non-negative troop counts, the two troop counts add up
after `atacar` to at most what they added up to before; when the attack is carried out
the total drops by exactly the defender's previous count on an attacker win and by
exactly `1` on a defender win or tie. -/
theorem atacar_nao_cria_tropas (a d : Territorio) (rng : Rand)
    (hv : a.valido) (_ha : 0 ≤ a.tropas) (hd : 0 ≤ d.tropas) :
    (atacar a d rng).atacante.tropas + (atacar a d rng).defensor.tropas
        ≤ a.tropas + d.tropas ∧
      (a.cor ≠ d.cor → 1 < a.tropas →
        dado (rng.seq (rng.pos + 1)) < dado (rng.seq rng.pos) →
        (atacar a d rng).atacante.tropas + (atacar a d rng).defensor.tropas
          = a.tropas + d.tropas - d.tropas) ∧
      (a.cor ≠ d.cor → 1 < a.tropas →
        dado (rng.seq rng.pos) ≤ dado (rng.seq (rng.pos + 1)) →
        (atacar a d rng).atacante.tropas + (atacar a d rng).defensor.tropas
          = a.tropas + d.tropas - 1) := by
  have hwin : a.cor ≠ d.cor → 1 < a.tropas →
      dado (rng.seq (rng.pos + 1)) < dado (rng.seq rng.pos) →
      (atacar a d rng).atacante.tropas + (atacar a d rng).defensor.tropas
        = a.tropas + d.tropas - d.tropas := by
    intro hc ht hdice
    obtain ⟨h1, h2, _, _⟩ := atacar_vence_def a d rng hv ht hc hdice
    rw [h1, h2]
    simp only
    omega
  have hlose : a.cor ≠ d.cor → 1 < a.tropas →
      dado (rng.seq rng.pos) ≤ dado (rng.seq (rng.pos + 1)) →
      (atacar a d rng).atacante.tropas + (atacar a d rng).defensor.tropas
        = a.tropas + d.tropas - 1 := by
    intro hc ht hdice
    obtain ⟨h1, h2, _, _⟩ := atacar_perde_def a d rng hv ht hc hdice
    rw [h1, h2]
    simp only
    omega
  refine ⟨?_, hwin, hlose⟩
  rcases atacar_casos a d rng with h | ⟨hc, ht, hdice⟩ | ⟨hc, ht, hdice⟩
  · obtain ⟨h1, h2⟩ := atacar_noop_def a d rng h
    rw [h1, h2]
  · rw [hwin hc ht hdice]; omega
  · rw [hlose hc ht hdice]; omega

theorem atacar_nao_cria_tropas_witness :
    (⟨"T1".toList, azul, 3⟩ : Territorio).valido ∧
      (atacar ⟨"T1".toList, azul, 3⟩ ⟨"T2".toList, vermelho, 4⟩ (rngDe 5 0)).atacante.tropas
        + (atacar ⟨"T1".toList, azul, 3⟩ ⟨"T2".toList, vermelho, 4⟩ (rngDe 5 0)).defensor.tropas
        = 3 + 4 - 4 ∧
      (atacar ⟨"T1".toList, azul, 3⟩ ⟨"T2".toList, vermelho, 4⟩ (rngDe 0 5)).atacante.tropas
        + (atacar ⟨"T1".toList, azul, 3⟩ ⟨"T2".toList, vermelho, 4⟩ (rngDe 0 5)).defensor.tropas
        = 3 + 4 - 1 :=
  ⟨by decide,
    (atacar_nao_cria_tropas ⟨"T1".toList, azul, 3⟩ ⟨"T2".toList, vermelho, 4⟩ (rngDe 5 0)
      (by decide) (by decide) (by decide)).2.1 (by decide) (by decide) (by decide),
    (atacar_nao_cria_tropas ⟨"T1".toList, azul, 3⟩ ⟨"T2".toList, vermelho, 4⟩ (rngDe 0 5)
      (by decide) (by decide) (by decide)).2.2 (by decide) (by decide) (by decide)⟩

/-! ## Game loop: selection -/

theorem escolherAtacante_some (mapa : List Territorio) (cor : CStr) (tries : Nat)
    (rng rng1 : Rand) (idx : Nat) (hlen : 0 < mapa.length)
    (h : escolherAtacante mapa cor tries rng = (some idx, rng1)) :
    idx < mapa.length ∧ (mapa.getD idx foraDoMapa).cor = cor ∧
      1 < (mapa.getD idx foraDoMapa).tropas := by
  induction tries generalizing rng with
  | zero => simp [escolherAtacante] at h
  | succ k ih =>
    unfold escolherAtacante at h
    simp only at h
    split_ifs at h with hc
    · have hi : (rand rng).1 % mapa.length = idx := by
        have := congrArg Prod.fst h
        simpa using this
      rw [← hi]
      exact ⟨Nat.mod_lt _ hlen, hc.1, hc.2⟩
    · exact ih _ h

theorem escolherDefensor_some (mapa : List Territorio) (cor : CStr) (tries : Nat)
    (rng rng1 : Rand) (idx : Nat) (hlen : 0 < mapa.length)
    (h : escolherDefensor mapa cor tries rng = (some idx, rng1)) :
    idx < mapa.length ∧ (mapa.getD idx foraDoMapa).cor ≠ cor := by
  induction tries generalizing rng with
  | zero => simp [escolherDefensor] at h
  | succ k ih =>
    unfold escolherDefensor at h
    simp only at h
    split_ifs at h with hc
    · have hi : (rand rng).1 % mapa.length = idx := by
        have := congrArg Prod.fst h
        simpa using this
      rw [← hi]
      exact ⟨Nat.mod_lt _ hlen, hc⟩
    · exact ih _ h

theorem selecionar_par (mapa : List Territorio) (cor : CStr) (rng rng1 : Rand) (a d : Nat)
    (hlen : 0 < mapa.length) (h : selecionar mapa cor rng = Selecao.par a d rng1) :
    a < mapa.length ∧ d < mapa.length ∧ (mapa.getD a foraDoMapa).cor = cor ∧
      1 < (mapa.getD a foraDoMapa).tropas ∧ (mapa.getD d foraDoMapa).cor ≠ cor := by
  unfold selecionar at h
  rcases hA : escolherAtacante mapa cor 20 rng with ⟨oa, r1⟩
  rw [hA] at h
  cases oa with
  | none => simp at h
  | some a1 =>
    simp only at h
    rcases hD : escolherDefensor mapa cor 20 r1 with ⟨od, r2⟩
    rw [hD] at h
    cases od with
    | none => simp at h
    | some d1 =>
      simp only [Selecao.par.injEq] at h
      obtain ⟨rfl, rfl, rfl⟩ := h
      obtain ⟨h1, h2, h3⟩ := escolherAtacante_some mapa cor 20 rng r1 a1 hlen hA
      obtain ⟨h4, h5⟩ := escolherDefensor_some mapa cor 20 r1 r2 d1 hlen hD
      exact ⟨h1, h4, h2, h3, h5⟩
/-! ## Game loop: the shape of the map -/

theorem getD_mem (mapa : List Territorio) (idx : Nat) (h : idx < mapa.length) :
    mapa.getD idx foraDoMapa ∈ mapa := by
  rw [List.getD_eq_getElem _ _ h]
  exact List.getElem_mem _

/-- A territory of one to five troops stays so through `atacar`, on either side. -/
theorem atacar_regular (a d : Territorio) (rng : Rand)
    (ha : a.valido ∧ 1 ≤ a.tropas ∧ a.tropas ≤ 5)
    (hd : d.valido ∧ 1 ≤ d.tropas ∧ d.tropas ≤ 5) :
    ((atacar a d rng).atacante.valido ∧ 1 ≤ (atacar a d rng).atacante.tropas ∧
        (atacar a d rng).atacante.tropas ≤ 5) ∧
      ((atacar a d rng).defensor.valido ∧ 1 ≤ (atacar a d rng).defensor.tropas ∧
        (atacar a d rng).defensor.tropas ≤ 5) := by
  obtain ⟨hva, ha1, ha5⟩ := ha
  obtain ⟨hvd, hd1, hd5⟩ := hd
  rcases atacar_casos a d rng with h | ⟨hc, ht, hdice⟩ | ⟨hc, ht, hdice⟩
  · obtain ⟨h1, h2⟩ := atacar_noop_def a d rng h
    rw [h1, h2]
    exact ⟨⟨hva, ha1, ha5⟩, ⟨hvd, hd1, hd5⟩⟩
  · obtain ⟨h1, h2, _, _⟩ := atacar_vence_def a d rng hva ht hc hdice
    rw [h1, h2]
    obtain ⟨hn, hcl, hmin, hmax⟩ := hva
    obtain ⟨hnd, _, _, _⟩ := hvd
    unfold INT_MIN at hmin
    unfold INT_MAX at hmax
    refine ⟨⟨⟨hn, hcl, ?_, ?_⟩, ?_, ?_⟩, ⟨⟨hnd, hcl, ?_, ?_⟩, ?_, ?_⟩⟩ <;>
      simp only [INT_MIN, INT_MAX] <;> omega
  · obtain ⟨h1, h2, _, _⟩ := atacar_perde_def a d rng hva ht hc hdice
    rw [h1, h2]
    obtain ⟨hn, hcl, hmin, hmax⟩ := hva
    unfold INT_MIN at hmin
    unfold INT_MAX at hmax
    refine ⟨⟨⟨hn, hcl, ?_, ?_⟩, ?_, ?_⟩, ⟨hvd, hd1, hd5⟩⟩ <;>
      simp only [INT_MIN, INT_MAX] <;> omega

theorem aposAtaque_regular (mapa : List Territorio) (a d : Nat) (rng : Rand)
    (hm : mapaRegular mapa) (ha : a < mapa.length) (hd : d < mapa.length) :
    mapaRegular (aposAtaque mapa a d rng) := by
  obtain ⟨hlen, hall⟩ := hm
  have hr := atacar_regular (mapa.getD a foraDoMapa) (mapa.getD d foraDoMapa) rng
    (hall _ (getD_mem mapa a ha)) (hall _ (getD_mem mapa d hd))
  unfold aposAtaque
  refine ⟨by simp [hlen], ?_⟩
  intro t ht
  rcases List.mem_or_eq_of_mem_set ht with ht | rfl
  · rcases List.mem_or_eq_of_mem_set ht with ht | rfl
    · exact hall t ht
    · exact hr.1
  · exact hr.2

theorem turno_semAtacante (missoes : List CStr) (jogador : Nat) (e : Jogo) (r1 : Rand)
    (h : selecionar e.mapa (coresJogadores.getD jogador []) e.rng = Selecao.semAtacante r1) :
    turno missoes jogador e = ⟨e.mapa, r1, e.rodada, e.vencedor,
      e.saida ++ [LinhaJogo.semAtacante (jogador + 1) (coresJogadores.getD jogador [])]⟩ := by
  unfold turno
  simp only [h]

theorem turno_semAlvo (missoes : List CStr) (jogador : Nat) (e : Jogo) (r1 : Rand)
    (h : selecionar e.mapa (coresJogadores.getD jogador []) e.rng = Selecao.semAlvo r1) :
    turno missoes jogador e = ⟨e.mapa, r1, e.rodada, e.vencedor,
      e.saida ++ [LinhaJogo.semAlvo (jogador + 1) (coresJogadores.getD jogador [])]⟩ := by
  unfold turno
  simp only [h]

theorem turno_par (missoes : List CStr) (jogador : Nat) (e : Jogo) (a d : Nat) (r1 : Rand)
    (h : selecionar e.mapa (coresJogadores.getD jogador []) e.rng = Selecao.par a d r1) :
    (turno missoes jogador e).mapa = aposAtaque e.mapa a d r1 ∧
      (turno missoes jogador e).rodada = e.rodada ∧
      (turno missoes jogador e).vencedor
        = (if verificarMissao (missoes.getD jogador []) (aposAtaque e.mapa a d r1)
              (coresJogadores.getD jogador []) ≠ 0
            then (jogador : Int) else e.vencedor) := by
  unfold turno
  simp only [h]
  split_ifs <;> simp

theorem turno_regular (missoes : List CStr) (jogador : Nat) (e : Jogo)
    (hm : mapaRegular e.mapa) : mapaRegular (turno missoes jogador e).mapa := by
  cases hsel : selecionar e.mapa (coresJogadores.getD jogador []) e.rng with
  | semAtacante r1 => rw [turno_semAtacante missoes jogador e r1 hsel]; exact hm
  | semAlvo r1 => rw [turno_semAlvo missoes jogador e r1 hsel]; exact hm
  | par a d r1 =>
    have hlen : 0 < e.mapa.length := by rw [hm.1]; decide
    obtain ⟨ha, hd, _⟩ := selecionar_par _ _ _ _ _ _ hlen hsel
    rw [(turno_par missoes jogador e a d r1 hsel).1]
    exact aposAtaque_regular e.mapa a d r1 hm ha hd

theorem alcancavel_regular (missoes : List CStr) (e : Jogo) (h : Alcancavel missoes e) :
    mapaRegular e.mapa := by
  induction h with
  | inicial rng =>
    have h : mapaRegular mapaInicial := by decide
    exact h
  | turno e j _ _ ih => exact turno_regular missoes j e ih
  | linha e l _ ih => exact ih
  | fimRodada e _ ih => exact ih
/-! ## Game loop: rounds, winner and reachability -/

theorem turno_rodada (missoes : List CStr) (jogador : Nat) (e : Jogo) :
    (turno missoes jogador e).rodada = e.rodada := by
  cases hsel : selecionar e.mapa (coresJogadores.getD jogador []) e.rng with
  | semAtacante r1 => rw [turno_semAtacante missoes jogador e r1 hsel]
  | semAlvo r1 => rw [turno_semAlvo missoes jogador e r1 hsel]
  | par a d r1 => exact (turno_par missoes jogador e a d r1 hsel).2.1

theorem turno_vencedor (missoes : List CStr) (jogador : Nat) (e : Jogo) :
    (turno missoes jogador e).vencedor = e.vencedor ∨
      (turno missoes jogador e).vencedor = (jogador : Int) := by
  cases hsel : selecionar e.mapa (coresJogadores.getD jogador []) e.rng with
  | semAtacante r1 => rw [turno_semAtacante missoes jogador e r1 hsel]; exact Or.inl rfl
  | semAlvo r1 => rw [turno_semAlvo missoes jogador e r1 hsel]; exact Or.inl rfl
  | par a d r1 =>
    rw [(turno_par missoes jogador e a d r1 hsel).2.2]
    split_ifs
    · exact Or.inr rfl
    · exact Or.inl rfl

theorem porJogador_rodada (missoes : List CStr) (js : List Nat) (e : Jogo) :
    (porJogador missoes js e).rodada = e.rodada := by
  induction js generalizing e with
  | nil => rfl
  | cons j js ih =>
    unfold porJogador
    split_ifs
    · rw [ih, turno_rodada]
    · rfl

theorem porJogador_vencedor (missoes : List CStr) (js : List Nat) (e : Jogo) :
    (porJogador missoes js e).vencedor = e.vencedor ∨
      ∃ j ∈ js, (porJogador missoes js e).vencedor = (j : Int) := by
  induction js generalizing e with
  | nil => exact Or.inl rfl
  | cons j js ih =>
    unfold porJogador
    split_ifs
    · rcases ih (turno missoes j e) with h | ⟨k, hk, h⟩
      · rcases turno_vencedor missoes j e with h2 | h2
        · exact Or.inl (h.trans h2)
        · exact Or.inr ⟨j, by simp, h.trans h2⟩
      · exact Or.inr ⟨k, by simp [hk], h⟩
    · exact Or.inl rfl

theorem umaRodada_rodada (missoes : List CStr) (e : Jogo) :
    (umaRodada missoes e).rodada = e.rodada + 1 := by
  unfold umaRodada
  simp only [porJogador_rodada]

theorem umaRodada_vencedor (missoes : List CStr) (e : Jogo) :
    (umaRodada missoes e).vencedor = e.vencedor ∨ (umaRodada missoes e).vencedor = 0 ∨
      (umaRodada missoes e).vencedor = 1 := by
  unfold umaRodada
  simp only
  rcases porJogador_vencedor missoes [0, 1]
    ⟨e.mapa, e.rng, e.rodada, e.vencedor, e.saida ++ [LinhaJogo.cabecalho (e.rodada + 1)]⟩
    with h | ⟨j, hj, h⟩
  · exact Or.inl h
  · simp only [List.mem_cons, List.mem_singleton, List.not_mem_nil, or_false] at hj
    rcases hj with rfl | rfl
    · exact Or.inr (Or.inl (by simpa using h))
    · exact Or.inr (Or.inr (by simpa using h))

/-- The unrolled loop stops on the loop condition, not on the bound of the unrolling, and
counts at most `maxRodadas` rounds. -/
theorem laco_final (missoes : List CStr) (fuel : Nat) (e : Jogo)
    (hr : e.rodada ≤ maxRodadas) (hf : maxRodadas ≤ e.rodada + fuel)
    (hv : e.vencedor = -1 ∨ e.vencedor = 0 ∨ e.vencedor = 1) :
    (laco missoes fuel e).rodada ≤ maxRodadas ∧
      ((laco missoes fuel e).vencedor = -1 ∨ (laco missoes fuel e).vencedor = 0 ∨
        (laco missoes fuel e).vencedor = 1) ∧
      ¬ ((laco missoes fuel e).rodada < maxRodadas ∧ (laco missoes fuel e).vencedor = -1) := by
  induction fuel generalizing e with
  | zero =>
    unfold laco
    refine ⟨hr, hv, ?_⟩
    rintro ⟨h1, _⟩
    omega
  | succ k ih =>
    unfold laco
    split_ifs with hc
    · apply ih
      · rw [umaRodada_rodada]; omega
      · rw [umaRodada_rodada]; omega
      · rcases umaRodada_vencedor missoes e with h | h | h
        · rw [h]; exact hv
        · exact Or.inr (Or.inl h)
        · exact Or.inr (Or.inr h)
    · exact ⟨hr, hv, hc⟩

theorem porJogador_alcancavel (missoes : List CStr) (js : List Nat) (e : Jogo)
    (hjs : ∀ j ∈ js, j < 2) (h : Alcancavel missoes e) :
    Alcancavel missoes (porJogador missoes js e) := by
  induction js generalizing e with
  | nil => exact h
  | cons j js ih =>
    unfold porJogador
    split_ifs
    · exact ih _ (fun k hk => hjs k (by simp [hk]))
        (Alcancavel.turno e j h (hjs j (by simp)))
    · exact h

theorem umaRodada_alcancavel (missoes : List CStr) (e : Jogo) (h : Alcancavel missoes e) :
    Alcancavel missoes (umaRodada missoes e) := by
  unfold umaRodada
  have h1 := Alcancavel.linha e (LinhaJogo.cabecalho (e.rodada + 1)) h
  have h2 := porJogador_alcancavel missoes [0, 1] _ (by decide) h1
  have h3 := Alcancavel.fimRodada _ h2
  exact Alcancavel.linha _ _ h3

/-- Every state the loop goes through, whatever the number of iterations, is reachable. -/
theorem laco_alcancavel (missoes : List CStr) (fuel : Nat) (e : Jogo)
    (h : Alcancavel missoes e) : Alcancavel missoes (laco missoes fuel e) := by
  induction fuel generalizing e with
  | zero => exact h
  | succ k ih =>
    unfold laco
    split_ifs
    · exact ih _ (umaRodada_alcancavel missoes e h)
    · exact h

theorem jogo_alcancavel (missoes : List CStr) (rng : Rand) :
    Alcancavel missoes (jogo missoes rng) := by
  unfold jogo
  exact Alcancavel.linha _ _ (laco_alcancavel missoes maxRodadas _ (Alcancavel.inicial rng))

/-- C13: whatever the two missions and the random draws, the game loop ends: the loop
condition is false in the final state, at most `maxRodadas = 50` rounds were completed,
the outcome is a winner index `0` or `1` or the no-winner value `-1`, and it is `-1` only
when exactly 50 rounds were completed. -/
theorem jogo_termina (missoes : List CStr) (rng : Rand) :
    (jogo missoes rng).rodada ≤ 50 ∧
      ((jogo missoes rng).vencedor = -1 ∨ (jogo missoes rng).vencedor = 0 ∨
        (jogo missoes rng).vencedor = 1) ∧
      ((jogo missoes rng).vencedor = -1 → (jogo missoes rng).rodada = 50) ∧
      ¬ ((jogo missoes rng).rodada < maxRodadas ∧ (jogo missoes rng).vencedor = -1) := by
  obtain ⟨h1, h2, h3⟩ := laco_final missoes maxRodadas (jogoInicial rng)
    (Nat.zero_le _) (by simp [jogoInicial]) (Or.inl rfl)
  have hmax : maxRodadas = 50 := rfl
  unfold jogo
  simp only
  refine ⟨by omega, h2, ?_, h3⟩
  intro hv
  have : ¬ (laco missoes maxRodadas (jogoInicial rng)).rodada < maxRodadas :=
    fun hlt => h3 ⟨hlt, hv⟩
  omega

theorem classePossuir_zero_ou_um (missao : CStr) (mapa : List Territorio) (cor : CStr)
    (r : Int) (h : classePossuir missao mapa cor = some r) : r = 0 ∨ r = 1 := by
  unfold classePossuir at h
  simp only at h
  split_ifs at h <;> cases h
  · exact Or.inr rfl
  · exact Or.inl rfl

theorem classeConquistar_zero_ou_um (missao : CStr) (mapa : List Territorio) (cor : CStr)
    (r : Int) (h : classeConquistar missao mapa cor = some r) : r = 0 ∨ r = 1 := by
  unfold classeConquistar at h
  simp only at h
  split_ifs at h <;> cases h
  · exact Or.inr rfl
  · exact Or.inl rfl

theorem classeEliminar_zero_ou_um (missao : CStr) (mapa : List Territorio)
    (r : Int) (h : classeEliminar missao mapa = some r) : r = 0 ∨ r = 1 := by
  unfold classeEliminar at h
  split_ifs at h
  cases hl : strrchr missao ' ' with
  | none => rw [hl] at h; cases h
  | some last =>
    rw [hl] at h
    simp only at h
    split_ifs at h <;> cases h
    · exact Or.inr rfl
    · exact Or.inl rfl

theorem verificarMissao_zero_ou_um (missao : CStr) (mapa : List Territorio) (cor : CStr) :
    verificarMissao missao mapa cor = 0 ∨ verificarMissao missao mapa cor = 1 := by
  unfold verificarMissao
  cases h1 : classePossuir missao mapa cor with
  | some r => exact classePossuir_zero_ou_um missao mapa cor r h1
  | none =>
    cases h2 : classeConquistar missao mapa cor with
    | some r => exact classeConquistar_zero_ou_um missao mapa cor r h2
    | none =>
      cases h3 : classeEliminar missao mapa with
      | some r => exact classeEliminar_zero_ou_um missao mapa r h3
      | none => exact Or.inl rfl

theorem turno_cumprida (missoes : List CStr) (jogador : Nat) (e : Jogo)
    (hv : e.vencedor = -1) (j : Nat) (hj : (turno missoes jogador e).vencedor = (j : Int)) :
    verificarMissao (missoes.getD j []) (turno missoes jogador e).mapa
      (coresJogadores.getD j []) = 1 := by
  cases hsel : selecionar e.mapa (coresJogadores.getD jogador []) e.rng with
  | semAtacante r1 =>
    rw [turno_semAtacante missoes jogador e r1 hsel] at hj
    simp only [hv] at hj
    omega
  | semAlvo r1 =>
    rw [turno_semAlvo missoes jogador e r1 hsel] at hj
    simp only [hv] at hj
    omega
  | par a d r1 =>
    obtain ⟨hm, _, hw⟩ := turno_par missoes jogador e a d r1 hsel
    rw [hw] at hj
    rw [hm]
    split_ifs at hj with hne
    · have hjj : jogador = j := by exact_mod_cast hj
      subst hjj
      rcases verificarMissao_zero_ou_um (missoes.getD jogador [])
        (aposAtaque e.mapa a d r1) (coresJogadores.getD jogador []) with h0 | h1
      · exact absurd h0 hne
      · exact h1
    · rw [hv] at hj
      omega

theorem porJogador_cumprida (missoes : List CStr) (js : List Nat) (e : Jogo)
    (he : ∀ j : Nat, e.vencedor = (j : Int) →
      verificarMissao (missoes.getD j []) e.mapa (coresJogadores.getD j []) = 1)
    (j : Nat) (hj : (porJogador missoes js e).vencedor = (j : Int)) :
    verificarMissao (missoes.getD j []) (porJogador missoes js e).mapa
      (coresJogadores.getD j []) = 1 := by
  induction js generalizing e with
  | nil => exact he j hj
  | cons k js ih =>
    unfold porJogador at hj ⊢
    split_ifs at hj ⊢ with hv
    · exact ih _ (fun i hi => turno_cumprida missoes k e hv i hi) hj
    · exact he j hj

theorem umaRodada_cumprida (missoes : List CStr) (e : Jogo)
    (he : ∀ j : Nat, e.vencedor = (j : Int) →
      verificarMissao (missoes.getD j []) e.mapa (coresJogadores.getD j []) = 1)
    (j : Nat) (hj : (umaRodada missoes e).vencedor = (j : Int)) :
    verificarMissao (missoes.getD j []) (umaRodada missoes e).mapa
      (coresJogadores.getD j []) = 1 := by
  unfold umaRodada at hj ⊢
  simp only at hj ⊢
  exact porJogador_cumprida missoes [0, 1]
    ⟨e.mapa, e.rng, e.rodada, e.vencedor, e.saida ++ [LinhaJogo.cabecalho (e.rodada + 1)]⟩
    he j hj

theorem laco_cumprida (missoes : List CStr) (fuel : Nat) (e : Jogo)
    (he : ∀ j : Nat, e.vencedor = (j : Int) →
      verificarMissao (missoes.getD j []) e.mapa (coresJogadores.getD j []) = 1)
    (j : Nat) (hj : (laco missoes fuel e).vencedor = (j : Int)) :
    verificarMissao (missoes.getD j []) (laco missoes fuel e).mapa
      (coresJogadores.getD j []) = 1 := by
  induction fuel generalizing e with
  | zero => exact he j hj
  | succ k ih =>
    unfold laco at hj ⊢
    split_ifs at hj ⊢ with hc
    · exact ih _ (fun i hi => umaRodada_cumprida missoes e he i hi) hj
    · exact he j hj

/-- C14: whatever the missions and the draws, if the game loop ends with winner `j`, the
mission of player `j` evaluates to `1` on the final map for the colour of player `j`. -/
theorem jogo_vencedor_cumpriu (missoes : List CStr) (rng : Rand) (j : Nat)
    (h : (jogo missoes rng).vencedor = (j : Int)) :
    verificarMissao (missoes.getD j []) (jogo missoes rng).mapa
      (coresJogadores.getD j []) = 1 := by
  unfold jogo at h ⊢
  simp only at h ⊢
  refine laco_cumprida missoes maxRodadas (jogoInicial rng) ?_ j h
  intro i hi
  simp only [jogoInicial] at hi
  omega

theorem jogo_vencedor_cumpriu_witness :
    (jogo ["Possuir 3 territorios".toList, "Possuir 5 territorios".toList]
        (rngLista [0, 1, 5, 0])).vencedor = ((0 : Nat) : Int) ∧
      verificarMissao "Possuir 3 territorios".toList
        (jogo ["Possuir 3 territorios".toList, "Possuir 5 territorios".toList]
          (rngLista [0, 1, 5, 0])).mapa azul = 1 :=
  ⟨by decide,
    jogo_vencedor_cumpriu ["Possuir 3 territorios".toList, "Possuir 5 territorios".toList]
      (rngLista [0, 1, 5, 0]) 0 (by decide)⟩

set_option maxRecDepth 1000000 in
/-- Two runs of the game: Blue wins in the first round, and nobody wins in 50 rounds. -/
theorem jogo_exemplos :
    (jogo ["Possuir 3 territorios".toList, "Possuir 5 territorios".toList]
        (rngLista [0, 1, 5, 0])).vencedor = 0 ∧
      (jogo ["Possuir 3 territorios".toList, "Possuir 5 territorios".toList]
        (rngLista [0, 1, 5, 0])).rodada = 1 ∧
      (jogo ["Possuir 5 territorios".toList, "Possuir 5 territorios".toList]
        (rngLista [0, 1, 0, 5])).vencedor = -1 ∧
      (jogo ["Possuir 5 territorios".toList, "Possuir 5 territorios".toList]
        (rngLista [0, 1, 0, 5])).rodada = 50 := by
  decide

/-- C15: in every reachable state, for every player and every generator, when the two
searches of a turn select a pair (the only case in which the loop calls `atacar`), both
indices are within the eight territories of the map, the attacker has the player's colour
and more than one troop, and the defender has another colour; `atacar` then rolls the two
dice and writes its two lines, so neither of its silent returns is taken. -/
theorem ataque_sempre_valido (missoes : List CStr) (e : Jogo) (jogador a d : Nat)
    (rng rng1 : Rand) (he : Alcancavel missoes e)
    (hsel : selecionar e.mapa (coresJogadores.getD jogador []) rng = Selecao.par a d rng1) :
    e.mapa.length = 8 ∧ a < 8 ∧ d < 8 ∧
      (e.mapa.getD a foraDoMapa).cor = coresJogadores.getD jogador [] ∧
      1 < (e.mapa.getD a foraDoMapa).tropas ∧
      (e.mapa.getD d foraDoMapa).cor ≠ coresJogadores.getD jogador [] ∧
      (atacar (e.mapa.getD a foraDoMapa) (e.mapa.getD d foraDoMapa) rng1).saida.length = 2 ∧
      (atacar (e.mapa.getD a foraDoMapa) (e.mapa.getD d foraDoMapa) rng1).rng
        = ⟨rng1.seq, rng1.pos + 2⟩ := by
  obtain ⟨hlen, hall⟩ := alcancavel_regular missoes e he
  obtain ⟨ha, hd, hca, hta, hcd⟩ :=
    selecionar_par e.mapa _ rng rng1 a d (by rw [hlen]; decide) hsel
  have hva := (hall _ (getD_mem e.mapa a ha)).1
  have hne : (e.mapa.getD a foraDoMapa).cor ≠ (e.mapa.getD d foraDoMapa).cor := by
    rw [hca]; exact fun h => hcd h.symm
  refine ⟨hlen, by omega, by omega, hca, hta, hcd, ?_⟩
  rcases atacar_casos (e.mapa.getD a foraDoMapa) (e.mapa.getD d foraDoMapa) rng1
    with h | ⟨_, _, hdice⟩ | ⟨_, _, hdice⟩
  · rcases h with h | h
    · exact absurd h hne
    · omega
  · obtain ⟨_, _, h3, h4⟩ := atacar_vence_def _ _ rng1 hva hta hne hdice
    exact ⟨h4, h3⟩
  · obtain ⟨_, _, h3, h4⟩ := atacar_perde_def _ _ rng1 hva hta hne hdice
    exact ⟨h4, h3⟩

theorem ataque_sempre_valido_witness :
    Alcancavel [] (jogoInicial (rngLista [0, 1, 5, 0])) ∧
      (mapaInicial.getD 0 foraDoMapa).cor = azul ∧
      1 < (mapaInicial.getD 0 foraDoMapa).tropas ∧
      (mapaInicial.getD 1 foraDoMapa).cor ≠ azul ∧
      (atacar (mapaInicial.getD 0 foraDoMapa) (mapaInicial.getD 1 foraDoMapa)
        ⟨(rngLista [0, 1, 5, 0]).seq, 2⟩).saida.length = 2 :=
  ⟨Alcancavel.inicial _,
    (ataque_sempre_valido [] (jogoInicial (rngLista [0, 1, 5, 0])) 0 0 1
      (rngLista [0, 1, 5, 0]) ⟨(rngLista [0, 1, 5, 0]).seq, 2⟩ (Alcancavel.inicial _) rfl).2.2.2.1,
    (ataque_sempre_valido [] (jogoInicial (rngLista [0, 1, 5, 0])) 0 0 1
      (rngLista [0, 1, 5, 0]) ⟨(rngLista [0, 1, 5, 0]).seq, 2⟩ (Alcancavel.inicial _) rfl).2.2.2.2.1,
    (ataque_sempre_valido [] (jogoInicial (rngLista [0, 1, 5, 0])) 0 0 1
      (rngLista [0, 1, 5, 0]) ⟨(rngLista [0, 1, 5, 0]).seq, 2⟩ (Alcancavel.inicial _) rfl).2.2.2.2.2.1,
    (ataque_sempre_valido [] (jogoInicial (rngLista [0, 1, 5, 0])) 0 0 1
      (rngLista [0, 1, 5, 0]) ⟨(rngLista [0, 1, 5, 0]).seq, 2⟩ (Alcancavel.inicial _) rfl).2.2.2.2.2.2.1⟩

/-- C17: a valid attacker and a defender that both have at least one troop both have at
least one troop after `atacar`; when the attacker has more than one troop the two
differences the code clamps at zero are at least `1`, so neither clamp fires; every
territory of the initial map has at least two troops, and every territory of every
reachable state has at least one. -/
theorem tropas_nunca_zeram (a d : Territorio) (rng : Rand) (missoes : List CStr) (e : Jogo)
    (hv : a.valido) (ha : 1 ≤ a.tropas) (hd : 1 ≤ d.tropas) (he : Alcancavel missoes e) :
    (1 ≤ (atacar a d rng).atacante.tropas ∧ 1 ≤ (atacar a d rng).defensor.tropas) ∧
      (1 < a.tropas →
        1 ≤ wrap32 (a.tropas
          - (if Int.tdiv a.tropas 2 < 1 then 1 else Int.tdiv a.tropas 2)) ∧
        1 ≤ wrap32 (a.tropas - 1)) ∧
      (∀ t ∈ mapaInicial, 2 ≤ t.tropas) ∧
      (∀ t ∈ e.mapa, 1 ≤ t.tropas) := by
  have hmax : a.tropas ≤ 2147483647 := hv.2.2.2
  refine ⟨?_, ?_, by decide, fun t ht => ((alcancavel_regular missoes e he).2 t ht).2.1⟩
  · rcases atacar_casos a d rng with h | ⟨hc, ht, hdice⟩ | ⟨hc, ht, hdice⟩
    · obtain ⟨h1, h2⟩ := atacar_noop_def a d rng h
      rw [h1, h2]
      exact ⟨ha, hd⟩
    · obtain ⟨h1, h2, _, _⟩ := atacar_vence_def a d rng hv ht hc hdice
      rw [h1, h2]
      constructor <;> simp only <;> omega
    · obtain ⟨h1, h2, _, _⟩ := atacar_perde_def a d rng hv ht hc hdice
      rw [h1, h2]
      constructor
      · simp only; omega
      · exact hd
  · intro ht
    have hdiv : Int.tdiv a.tropas 2 = a.tropas / 2 := tdiv_two_of_nonneg (by omega)
    have hhalf : ¬ a.tropas / 2 < 1 := by omega
    rw [hdiv, if_neg hhalf, wrap32_of_range (by omega) (by omega),
      wrap32_of_range (by omega) (by omega)]
    constructor <;> omega

theorem tropas_nunca_zeram_witness :
    (⟨"T3".toList, azul, 2⟩ : Territorio).valido ∧
      Alcancavel [] (turno [] 0 (jogoInicial (rngLista [2, 1, 5, 0]))) ∧
      1 ≤ (atacar ⟨"T3".toList, azul, 2⟩ ⟨"T2".toList, vermelho, 4⟩
        (rngDe 5 0)).atacante.tropas ∧
      1 ≤ (atacar ⟨"T3".toList, azul, 2⟩ ⟨"T2".toList, vermelho, 4⟩
        (rngDe 5 0)).defensor.tropas ∧
      ∀ t ∈ (turno [] 0 (jogoInicial (rngLista [2, 1, 5, 0]))).mapa, 1 ≤ t.tropas :=
  ⟨by decide, Alcancavel.turno _ 0 (Alcancavel.inicial _) (by decide),
    (tropas_nunca_zeram ⟨"T3".toList, azul, 2⟩ ⟨"T2".toList, vermelho, 4⟩ (rngDe 5 0) []
      (turno [] 0 (jogoInicial (rngLista [2, 1, 5, 0]))) (by decide) (by decide) (by decide)
      (Alcancavel.turno _ 0 (Alcancavel.inicial _) (by decide))).1.1,
    (tropas_nunca_zeram ⟨"T3".toList, azul, 2⟩ ⟨"T2".toList, vermelho, 4⟩ (rngDe 5 0) []
      (turno [] 0 (jogoInicial (rngLista [2, 1, 5, 0]))) (by decide) (by decide) (by decide)
      (Alcancavel.turno _ 0 (Alcancavel.inicial _) (by decide))).1.2,
    (tropas_nunca_zeram ⟨"T3".toList, azul, 2⟩ ⟨"T2".toList, vermelho, 4⟩ (rngDe 5 0) []
      (turno [] 0 (jogoInicial (rngLista [2, 1, 5, 0]))) (by decide) (by decide) (by decide)
      (Alcancavel.turno _ 0 (Alcancavel.inicial _) (by decide))).2.2.2⟩

theorem verificarMissao_eliminarVermelho (mapa : List Territorio) (cor : CStr) :
    verificarMissao fraseEliminarVermelho mapa cor
      = if somarTropas mapa vermelho = 0 then 1 else 0 := by
  have hN : extrairN fraseEliminarVermelho ≤ 0 := by decide
  have hinf : (strstr fraseEliminarVermelho fraseEliminar).isSome = true := by decide
  have hlast : strrchr fraseEliminarVermelho ' ' = some (' ' :: vermelho) := by decide
  have hcor : corAlvoDe (' ' :: vermelho) = vermelho := by decide
  rw [verificarMissao_sem_contagem _ mapa cor hN]
  unfold classeEliminar
  simp only [hinf, if_true, hlast, hcor, Option.getD_some]

theorem tropasDe_le (mapa : List Territorio) (alvo : CStr)
    (h : ∀ t ∈ mapa, t.tropas ≤ 5) : tropasDe mapa alvo ≤ 5 * (mapa.length : Int) := by
  induction mapa with
  | nil => simp [tropasDe]
  | cons t ts ih =>
    have hts := ih (fun x hx => h x (by simp [hx]))
    have ht := h t (by simp)
    rw [tropasDe_cons]
    simp only [List.length_cons, Nat.cast_add, Nat.cast_one]
    split_ifs <;> omega

/-- When every territory has at least one troop and the Red total fits an `int`, the
elimination mission for Red holds exactly when no territory is Red. -/
theorem eliminarVermelho_iff (mapa : List Territorio) (cor : CStr)
    (h1 : ∀ t ∈ mapa, 1 ≤ t.tropas) (hsum : tropasDe mapa vermelho ≤ INT_MAX) :
    verificarMissao fraseEliminarVermelho mapa cor = 1 ↔ ∀ t ∈ mapa, t.cor ≠ vermelho := by
  have h0 : ∀ t ∈ mapa, t.cor = vermelho → 0 ≤ t.tropas := fun t ht _ => by
    have := h1 t ht
    omega
  rw [verificarMissao_eliminarVermelho, somarTropas_eq mapa vermelho h0 hsum]
  have hz := tropasDe_eq_zero_iff mapa vermelho h0
  constructor
  · intro h t ht hc
    have hs : tropasDe mapa vermelho = 0 := by
      by_contra hne
      rw [if_neg hne] at h
      exact absurd h (by decide)
    have := hz.mp hs t ht hc
    have := h1 t ht
    omega
  · intro h
    have hs : tropasDe mapa vermelho = 0 := hz.mpr (fun t ht hc => absurd hc (h t ht))
    rw [if_pos hs]

/-- C18, as stated, fails: every territory of the four-territory map has at least one
troop (2^30 each) and all four are Red, yet the 32-bit total is `0` and the elimination
mission for Red evaluates to `1`. -/
theorem eliminar_exige_conquista_counterexample :
    (∀ t ∈ mapaTransbordo, 1 ≤ t.tropas) ∧
      verificarMissao "Eliminar todas as tropas da cor Red".toList mapaTransbordo azul = 1 ∧
      ¬ (∀ t ∈ mapaTransbordo, t.cor ≠ "Red".toList) := by
  decide

/-- C18, amended: on every map in which every territory has at least one troop and whose
Red troops total at most `INT_MAX`, and so on the map of every reachable state of the
game, `verificarMissao` on "Eliminar todas as tropas da cor Red" returns `1` exactly when
no territory is Red. -/
theorem eliminar_exige_conquista (mapa : List Territorio) (cor : CStr) (missoes : List CStr)
    (e : Jogo) (h1 : ∀ t ∈ mapa, 1 ≤ t.tropas) (hsum : tropasDe mapa vermelho ≤ INT_MAX)
    (he : Alcancavel missoes e) :
    (verificarMissao "Eliminar todas as tropas da cor Red".toList mapa cor = 1 ↔
        ∀ t ∈ mapa, t.cor ≠ "Red".toList) ∧
      (verificarMissao "Eliminar todas as tropas da cor Red".toList e.mapa cor = 1 ↔
        ∀ t ∈ e.mapa, t.cor ≠ "Red".toList) := by
  obtain ⟨hlen, hall⟩ := alcancavel_regular missoes e he
  have hle := tropasDe_le e.mapa vermelho (fun t ht => (hall t ht).2.2)
  have hsum2 : tropasDe e.mapa vermelho ≤ INT_MAX := by
    rw [hlen] at hle
    unfold INT_MAX
    norm_num at hle
    omega
  exact ⟨eliminarVermelho_iff mapa cor h1 hsum,
    eliminarVermelho_iff e.mapa cor (fun t ht => (hall t ht).2.1) hsum2⟩

theorem eliminar_exige_conquista_witness :
    (∀ t ∈ mapaAzul3, 1 ≤ t.tropas) ∧ Alcancavel [] (jogoInicial (rngLista [])) ∧
      ¬ verificarMissao "Eliminar todas as tropas da cor Red".toList mapaAzul3 azul = 1 ∧
      ¬ verificarMissao "Eliminar todas as tropas da cor Red".toList mapaInicial azul = 1 :=
  ⟨by decide, Alcancavel.inicial _,
    fun h => absurd ((eliminar_exige_conquista mapaAzul3 azul [] (jogoInicial (rngLista []))
      (by decide) (by decide) (Alcancavel.inicial _)).1.mp h) (by decide),
    fun h => absurd ((eliminar_exige_conquista mapaAzul3 azul [] (jogoInicial (rngLista []))
      (by decide) (by decide) (Alcancavel.inicial _)).2.mp h) (by decide)⟩

/-! ## The first attack of the game -/

theorem aposAtaque_vence (mapa : List Territorio) (a d : Nat) (rng : Rand)
    (hv : (mapa.getD a foraDoMapa).valido) (ht : 1 < (mapa.getD a foraDoMapa).tropas)
    (hc : (mapa.getD a foraDoMapa).cor ≠ (mapa.getD d foraDoMapa).cor)
    (hd : dado (rng.seq (rng.pos + 1)) < dado (rng.seq rng.pos)) :
    aposAtaque mapa a d rng
      = (mapa.set a ⟨(mapa.getD a foraDoMapa).nome, (mapa.getD a foraDoMapa).cor,
            (mapa.getD a foraDoMapa).tropas - (mapa.getD a foraDoMapa).tropas / 2⟩).set d
          ⟨(mapa.getD d foraDoMapa).nome, (mapa.getD a foraDoMapa).cor,
            (mapa.getD a foraDoMapa).tropas / 2⟩ := by
  obtain ⟨h1, h2, _, _⟩ := atacar_vence_def _ _ rng hv ht hc hd
  unfold aposAtaque
  simp only [h1, h2]

theorem aposAtaque_perde (mapa : List Territorio) (a d : Nat) (rng : Rand)
    (hv : (mapa.getD a foraDoMapa).valido) (ht : 1 < (mapa.getD a foraDoMapa).tropas)
    (hc : (mapa.getD a foraDoMapa).cor ≠ (mapa.getD d foraDoMapa).cor)
    (hd : dado (rng.seq rng.pos) ≤ dado (rng.seq (rng.pos + 1))) :
    aposAtaque mapa a d rng
      = (mapa.set a ⟨(mapa.getD a foraDoMapa).nome, (mapa.getD a foraDoMapa).cor,
            (mapa.getD a foraDoMapa).tropas - 1⟩).set d (mapa.getD d foraDoMapa) := by
  obtain ⟨h1, h2, _, _⟩ := atacar_perde_def _ _ rng hv ht hc hd
  unfold aposAtaque
  simp only [h1, h2]

/-- After any attack of a Blue territory of the initial map on a Red one, Blue owns at
least four territories. -/
theorem aposAtaque_inicial_azul (a d : Nat) (rng : Rand)
    (ha : a < 8) (hca : (mapaInicial.getD a foraDoMapa).cor = azul)
    (hd : d < 8) (hcd : (mapaInicial.getD d foraDoMapa).cor = vermelho) :
    4 ≤ territoriosDe (aposAtaque mapaInicial a d rng) azul := by
  have hv : (mapaInicial.getD a foraDoMapa).valido := by
    interval_cases a <;> decide
  have ht : 1 < (mapaInicial.getD a foraDoMapa).tropas := by
    interval_cases a <;> decide
  have hc : (mapaInicial.getD a foraDoMapa).cor ≠ (mapaInicial.getD d foraDoMapa).cor := by
    rw [hca, hcd]; decide
  by_cases hdice : dado (rng.seq (rng.pos + 1)) < dado (rng.seq rng.pos)
  · rw [aposAtaque_vence mapaInicial a d rng hv ht hc hdice]
    interval_cases a <;> first | exact absurd hca (by decide) | skip
    all_goals (interval_cases d <;> first | exact absurd hcd (by decide) | decide)
  · rw [aposAtaque_perde mapaInicial a d rng hv ht hc (by omega)]
    interval_cases a <;> first | exact absurd hca (by decide) | skip
    all_goals (interval_cases d <;> first | exact absurd hcd (by decide) | decide)

theorem aposAtaque_length (mapa : List Territorio) (a d : Nat) (rng : Rand) :
    (aposAtaque mapa a d rng).length = mapa.length := by
  unfold aposAtaque
  simp

theorem laco_parado (missoes : List CStr) (fuel : Nat) (e : Jogo) (h : e.vencedor ≠ -1) :
    laco missoes fuel e = e := by
  cases fuel with
  | zero => rfl
  | succ k =>
    unfold laco
    rw [if_neg (fun hc => h hc.2)]

/-- C20: on the initial map, after `atacar` on any Blue-owned attacker and any Red-owned
defender, whatever the dice, `verificarMissao` returns `1` for Blue when the mission is
"Possuir 3 territorios", "Possuir 4 territorios" or "Conquistar 2 territorios seguidos",
three phrases of the catalog; so when Blue holds one of them and the searches of its first
turn select a pair, the game ends with Blue as winner after one round. -/
theorem azul_vence_no_primeiro_ataque (a d : Nat) (rng rng0 : Rand) (missao : CStr)
    (missoes : List CStr)
    (ha : a < 8) (hca : (mapaInicial.getD a foraDoMapa).cor = azul)
    (hd : d < 8) (hcd : (mapaInicial.getD d foraDoMapa).cor = vermelho)
    (hm : missao = "Possuir 3 territorios".toList ∨ missao = "Possuir 4 territorios".toList ∨
      missao = "Conquistar 2 territorios seguidos".toList) :
    verificarMissao missao (aposAtaque mapaInicial a d rng) azul = 1 ∧
      missao ∈ missoesDisponiveis ∧
      (missoes.getD 0 [] = missao →
        selecionar mapaInicial azul rng0 = Selecao.par a d rng →
        (jogo missoes rng0).vencedor = 0 ∧ (jogo missoes rng0).rodada = 1) := by
  have hcnt := aposAtaque_inicial_azul a d rng ha hca hd hcd
  have hlen : ((aposAtaque mapaInicial a d rng).length : Int) ≤ INT_MAX := by
    rw [aposAtaque_length]; decide
  have hcc := contarCor_eq (aposAtaque mapaInicial a d rng) azul hlen
  have hcntI : (4 : Int) ≤ (territoriosDe (aposAtaque mapaInicial a d rng) azul : Int) := by
    exact_mod_cast hcnt
  have hver : verificarMissao missao (aposAtaque mapaInicial a d rng) azul = 1 := by
    rcases hm with rfl | rfl | rfl
    · rw [verificarMissao_contagem _ _ _ (Or.inl (by decide)) (by decide), hcc]
      have : extrairN "Possuir 3 territorios".toList = 3 := by decide
      rw [this, if_pos (by omega)]
    · rw [verificarMissao_contagem _ _ _ (Or.inl (by decide)) (by decide), hcc]
      have : extrairN "Possuir 4 territorios".toList = 4 := by decide
      rw [this, if_pos (by omega)]
    · rw [verificarMissao_contagem _ _ _ (Or.inr (by decide)) (by decide), hcc]
      have : extrairN "Conquistar 2 territorios seguidos".toList = 2 := by decide
      rw [this, if_pos (by omega)]
  refine ⟨hver, ?_, ?_⟩
  · rcases hm with rfl | rfl | rfl <;> decide
  · intro hm0 hsel
    have hne : verificarMissao (missoes.getD 0 []) (aposAtaque mapaInicial a d rng)
        (coresJogadores.getD 0 []) ≠ 0 := by
      rw [hm0]
      have : coresJogadores.getD 0 [] = azul := rfl
      rw [this, hver]
      decide
    have he1 : ∀ l : List LinhaJogo,
        (turno missoes 0 ⟨mapaInicial, rng0, 0, -1, l⟩).vencedor = 0 ∧
        (turno missoes 0 ⟨mapaInicial, rng0, 0, -1, l⟩).rodada = 0 := by
      intro l
      obtain ⟨_, h2, h3⟩ := turno_par missoes 0 ⟨mapaInicial, rng0, 0, -1, l⟩ a d rng hsel
      rw [h3, if_pos hne]
      exact ⟨rfl, h2⟩
    have hrod : (umaRodada missoes (jogoInicial rng0)).vencedor = 0 ∧
        (umaRodada missoes (jogoInicial rng0)).rodada = 1 := by
      obtain ⟨hv1, hr1⟩ := he1 ([] ++ [LinhaJogo.cabecalho (0 + 1)])
      unfold umaRodada jogoInicial
      have hz : ¬ ((0 : Int) = -1) := by decide
      simp only [porJogador, if_true, hv1, hr1, if_neg hz, and_self]
    have hstop : laco missoes maxRodadas (jogoInicial rng0)
        = umaRodada missoes (jogoInicial rng0) := by
      have : maxRodadas = 49 + 1 := rfl
      rw [this]
      unfold laco
      have h50 : (0 : Nat) < maxRodadas := by decide
      rw [if_pos ⟨h50, rfl⟩]
      exact laco_parado missoes 49 _ (by rw [hrod.1]; decide)
    unfold jogo
    simp only [hstop]
    exact hrod

theorem azul_vence_no_primeiro_ataque_witness :
    (mapaInicial.getD 0 foraDoMapa).cor = azul ∧
      (mapaInicial.getD 1 foraDoMapa).cor = vermelho ∧
      verificarMissao "Possuir 4 territorios".toList
        (aposAtaque mapaInicial 0 1 ⟨(rngLista [0, 1, 0, 5]).seq, 2⟩) azul = 1 ∧
      (jogo ["Possuir 4 territorios".toList, "Possuir 5 territorios".toList]
        (rngLista [0, 1, 0, 5])).vencedor = 0 ∧
      (jogo ["Possuir 4 territorios".toList, "Possuir 5 territorios".toList]
        (rngLista [0, 1, 0, 5])).rodada = 1 :=
  ⟨by decide, by decide,
    (azul_vence_no_primeiro_ataque 0 1 ⟨(rngLista [0, 1, 0, 5]).seq, 2⟩ (rngLista [0, 1, 0, 5])
      "Possuir 4 territorios".toList
      ["Possuir 4 territorios".toList, "Possuir 5 territorios".toList]
      (by decide) (by decide) (by decide) (by decide) (Or.inr (Or.inl rfl))).1,
    (azul_vence_no_primeiro_ataque 0 1 ⟨(rngLista [0, 1, 0, 5]).seq, 2⟩ (rngLista [0, 1, 0, 5])
      "Possuir 4 territorios".toList
      ["Possuir 4 territorios".toList, "Possuir 5 territorios".toList]
      (by decide) (by decide) (by decide) (by decide) (Or.inr (Or.inl rfl))).2.2 rfl rfl⟩

end ControllerFire
